import Mathlib

/-!
Shallow embedding of the srochno marketplace backend order lifecycle:
the data model (users, orders, executor takes, balance transactions,
payment invoices), the order service operations, the balance service
refund, the crypto payment webhook processing, and the expiry sweeper.
Every definition is translated from the repository source files noted in
its doc comment.  Timestamps are natural numbers (minutes on a global
clock): every deadline in the code is computed at minute granularity.
-/

set_option maxHeartbeats 2000000

/-- Order lifecycle statuses, from app/models/order.py (OrderStatus). -/
inductive OrderStatus where
  | active
  | expired
  | deleted
  | closedNoResponse
  | completed
  deriving DecidableEq

/-- Balance transaction types, from app/models/balance.py (TransactionType). -/
inductive TransactionType where
  | recharge
  | orderTake
  | refund
  deriving DecidableEq

/-- Payment invoice statuses, from app/models/payment.py (InvoiceStatus). -/
inductive InvoiceStatus where
  | pending
  | paid
  | expiredInv
  deriving DecidableEq

/-- HTTP-level error outcomes raised by the services (fastapi HTTPException
status codes), plus `internalError` for `scalar_one()` on a missing row. -/
inductive Err where
  | notFound
  | forbidden
  | gone
  | conflict
  | paymentRequired
  | badRequest
  | internalError
  deriving DecidableEq

/-- User row, from app/models/user.py, restricted to the fields the order,
balance and payment flows read or write.  Counters are integers (Python
ints); the code clamps decrements with `max(0, x - 1)`. -/
structure UserR where
  id : Int
  balance : Int
  active_orders_count : Int
  completed_orders_count : Int
  deriving DecidableEq

/-- Order row, from app/models/order.py. -/
structure OrderR where
  id : String
  client_id : Int
  category : String
  description : String
  city : String
  contact : String
  status : OrderStatus
  city_locked : Bool
  expires_in_minutes : Nat
  created_at : Nat
  customer_responded_at : Option Nat
  deriving DecidableEq

/-- ExecutorTake row, from app/models/order.py (ExecutorTake). -/
structure ExecutorTakeR where
  order_id : String
  executor_id : Int
  taken_at : Nat
  deriving DecidableEq

/-- BalanceTransaction row, from app/models/balance.py.  `id` models the
autoincrement primary key (position in the append-only log). -/
structure BalanceTransactionR where
  id : Nat
  user_id : Int
  type : TransactionType
  amount : Int
  balance_after : Int
  order_id : Option String
  payment_method : Option String
  external_transaction_id : Option String
  description : String
  deriving DecidableEq

/-- PaymentInvoice row, from app/models/payment.py. -/
structure PaymentInvoiceR where
  id : Nat
  user_id : Int
  crypto_bot_invoice_id : Int
  amount : Int
  status : InvoiceStatus
  balance_transaction_id : Option Nat
  paid_at : Option Nat
  deriving DecidableEq

/-- Business-logic configuration, from app/core/config.py (Settings).
Defaults there: lifetime 60, no-response window 15, max executors 3,
take cost 2. -/
structure Settings where
  order_lifetime_minutes : Nat
  no_response_close_minutes : Nat
  max_executors_per_order : Nat
  order_take_cost : Int
  deriving DecidableEq

/-- The transactional relational store: one list per table. -/
structure DBState where
  users : List UserR
  orders : List OrderR
  takes : List ExecutorTakeR
  transactions : List BalanceTransactionR
  invoices : List PaymentInvoiceR
  deriving DecidableEq

/-- SELECT a user by primary key (`scalar_one_or_none`). -/
def findUser (st : DBState) (uid : Int) : Option UserR :=
  st.users.find? (fun u => u.id == uid)

/-- UPDATE the user row with the given id. -/
def updateUser (st : DBState) (uid : Int) (f : UserR → UserR) : DBState :=
  { st with users := st.users.map (fun u => if u.id = uid then f u else u) }

/-- SELECT an order by primary key (`scalar_one_or_none`). -/
def findOrder (st : DBState) (oid : String) : Option OrderR :=
  st.orders.find? (fun o => o.id == oid)

/-- UPDATE the order row with the given id. -/
def mapOrder (st : DBState) (oid : String) (f : OrderR → OrderR) : DBState :=
  { st with orders := st.orders.map (fun o => if o.id = oid then f o else o) }

/-- Set the status field of the order row with the given id. -/
def setStatus (st : DBState) (oid : String) (s : OrderStatus) : DBState :=
  mapOrder st oid (fun o => { o with status := s })

/-- The `executor_takes` relationship of an order: all take rows whose
`order_id` matches. -/
def orderTakes (st : DBState) (oid : String) : List ExecutorTakeR :=
  st.takes.filter (fun t => t.order_id == oid)

/-- The clamped counter decrement `max(0, active_orders_count - 1)` used
throughout order_service.py and utils/timer.py. -/
def decActive (u : UserR) : UserR :=
  { u with active_orders_count := max 0 (u.active_orders_count - 1) }

/-- The executor-row mutation of a successful take (order_service.py lines
278-280): debit the take cost and increment the active counter. -/
def debitTake (cfg : Settings) (u : UserR) : UserR :=
  { u with balance := u.balance - cfg.order_take_cost,
           active_orders_count := u.active_orders_count + 1 }

/-- OrderService.is_expired (app/services/order_service.py lines 24-29):
`now >= created_at + timedelta(minutes=expires_in_minutes)`. -/
def is_expired (o : OrderR) (now : Nat) : Bool :=
  decide (o.created_at + o.expires_in_minutes ≤ now)

/-- Payload of CreateOrderRequest (app/schemas/order.py). -/
structure CreateOrderRequest where
  category : String
  description : String
  city : String
  contact : String
  deriving DecidableEq

/-- Payload of UpdateOrderRequest (app/schemas/order.py): optional fields;
the service applies a field only when it is truthy (present and nonempty). -/
structure UpdateOrderRequest where
  category : Option String
  description : Option String
  contact : Option String
  deriving DecidableEq

/-- Truthiness test the update patch uses (`if request.category:`). -/
def truthy : Option String → Bool
  | none => false
  | some s => !(s == "")

/-- OrderService.create_order (order_service.py lines 39-74).  The random
opaque id from `generate_order_id` is passed in as `newId`; `now` is the
row-default creation timestamp.  Fails Conflict when an ACTIVE order with
the same contact exists; otherwise inserts the order (city_locked true,
lifetime from settings) and increments the client's active counter.
The row built by create_order is `createdOrder`. -/
def createdOrder (cfg : Settings) (userId : Int) (req : CreateOrderRequest)
    (newId : String) (now : Nat) : OrderR :=
  { id := newId, client_id := userId, category := req.category,
    description := req.description, city := req.city, contact := req.contact,
    status := OrderStatus.active, city_locked := true,
    expires_in_minutes := cfg.order_lifetime_minutes, created_at := now,
    customer_responded_at := none }

/-- Body of OrderService.create_order over the row `createdOrder`. -/
def create_order (cfg : Settings) (st : DBState) (userId : Int)
    (req : CreateOrderRequest) (newId : String) (now : Nat) :
    Except Err OrderR × DBState :=
  if st.orders.any (fun o => o.contact == req.contact && o.status == OrderStatus.active) then
    (Except.error Err.conflict, st)
  else
    let order : OrderR := createdOrder cfg userId req newId now
    let st1 : DBState := { st with orders := st.orders ++ [order] }
    let st2 := updateUser st1 userId
      (fun u => { u with active_orders_count := u.active_orders_count + 1 })
    (Except.ok order, st2)

/-- OrderService.update_order (order_service.py lines 76-112).  SELECT by
id and client_id (ownership folded into the query, absent rows and foreign
rows both 404); Forbidden when any take exists; Gone when past expiry;
otherwise applies the truthy fields of the patch. -/
def update_order (st : DBState) (oid : String) (userId : Int)
    (req : UpdateOrderRequest) (now : Nat) : Except Err OrderR × DBState :=
  match st.orders.find? (fun o => o.id == oid && o.client_id == userId) with
  | none => (Except.error Err.notFound, st)
  | some order =>
    if orderTakes st oid ≠ [] then
      (Except.error Err.forbidden, st)
    else if is_expired order now then
      (Except.error Err.gone, st)
    else
      let patched : OrderR :=
        { order with
          category := if truthy req.category then req.category.getD order.category else order.category,
          description := if truthy req.description then req.description.getD order.description else order.description,
          contact := if truthy req.contact then req.contact.getD order.contact else order.contact }
      (Except.ok patched, mapOrder st oid (fun _ => patched))

/-- OrderService.delete_order (order_service.py lines 114-139).  SELECT by
id and client_id; Forbidden when any take exists; then sets status DELETED
and clamp-decrements the client's active counter.  The source performs no
status or expiry check on this path. -/
def delete_order (st : DBState) (oid : String) (userId : Int) :
    Except Err Unit × DBState :=
  match st.orders.find? (fun o => o.id == oid && o.client_id == userId) with
  | none => (Except.error Err.notFound, st)
  | some _ =>
    if orderTakes st oid ≠ [] then
      (Except.error Err.forbidden, st)
    else
      let st1 := setStatus st oid OrderStatus.deleted
      (Except.ok (), updateUser st1 userId decActive)

/-- OrderService.take_order (order_service.py lines 205-300).  Locks and
re-reads the executor (`scalar_one`, internalError when absent), then the
order; 404 when absent; Gone when not ACTIVE; on the lazy-expiry branch
sets EXPIRED, clamp-decrements the client's counter, commits and raises
Gone; Forbidden on self-take; free idempotent return when this executor
already holds a take; Conflict at the executor cap; PaymentRequired on
insufficient balance; otherwise debits the cost, increments the counter,
inserts the take and the order_take transaction.  Returns
(contact, take count, balance). -/
def take_order (cfg : Settings) (st : DBState) (oid : String)
    (executorId : Int) (now : Nat) :
    Except Err (String × Nat × Int) × DBState :=
  match findUser st executorId with
  | none => (Except.error Err.internalError, st)
  | some executor =>
    match findOrder st oid with
    | none => (Except.error Err.notFound, st)
    | some order =>
      if order.status ≠ OrderStatus.active then
        (Except.error Err.gone, st)
      else if is_expired order now then
        let st1 := setStatus st oid OrderStatus.expired
        let st2 :=
          if (findUser st1 order.client_id).isSome then
            updateUser st1 order.client_id decActive
          else st1
        (Except.error Err.gone, st2)
      else if order.client_id = executorId then
        (Except.error Err.forbidden, st)
      else if (orderTakes st oid).any (fun t => t.executor_id == executorId) then
        (Except.ok (order.contact, (orderTakes st oid).length, executor.balance), st)
      else if cfg.max_executors_per_order ≤ (orderTakes st oid).length then
        (Except.error Err.conflict, st)
      else if executor.balance < cfg.order_take_cost then
        (Except.error Err.paymentRequired, st)
      else
        let newBal := executor.balance - cfg.order_take_cost
        let st1 := updateUser st executorId (debitTake cfg)
        let st2 : DBState :=
          { st1 with takes := st1.takes ++
              [{ order_id := oid, executor_id := executorId, taken_at := now }] }
        let st3 : DBState :=
          { st2 with transactions := st2.transactions ++
              [{ id := st2.transactions.length, user_id := executorId,
                 type := TransactionType.orderTake, amount := -cfg.order_take_cost,
                 balance_after := newBal, order_id := some oid,
                 payment_method := none, external_transaction_id := none,
                 description := "Took order " ++ oid }] }
        (Except.ok (order.contact, (orderTakes st3 oid).length, newBal), st3)

/-- OrderService.respond_to_order (order_service.py lines 302-345).
NotFound when absent; Forbidden when not the client; Gone when not ACTIVE;
Conflict when no takes or already responded; else stamps
customer_responded_at. -/
def respond_to_order (st : DBState) (oid : String) (userId : Int) (now : Nat) :
    Except Err Unit × DBState :=
  match findOrder st oid with
  | none => (Except.error Err.notFound, st)
  | some order =>
    if order.client_id ≠ userId then
      (Except.error Err.forbidden, st)
    else if order.status ≠ OrderStatus.active then
      (Except.error Err.gone, st)
    else if orderTakes st oid = [] then
      (Except.error Err.conflict, st)
    else if order.customer_responded_at ≠ none then
      (Except.error Err.conflict, st)
    else
      (Except.ok (), mapOrder st oid (fun o => { o with customer_responded_at := some now }))

/-- OrderService.close_order (order_service.py lines 347-393).  NotFound /
Forbidden / Gone / Conflict checks, then sets CLOSED_NO_RESPONSE,
clamp-decrements the client's counter and every taking executor's counter.
No refund on this path. -/
def close_order (st : DBState) (oid : String) (userId : Int) :
    Except Err Unit × DBState :=
  match findOrder st oid with
  | none => (Except.error Err.notFound, st)
  | some order =>
    if order.client_id ≠ userId then
      (Except.error Err.forbidden, st)
    else if order.status ≠ OrderStatus.active then
      (Except.error Err.gone, st)
    else if orderTakes st oid = [] then
      (Except.error Err.conflict, st)
    else
      let st1 := setStatus st oid OrderStatus.closedNoResponse
      let st2 := updateUser st1 userId decActive
      let st3 := (orderTakes st oid).foldl
        (fun s t =>
          if (findUser s t.executor_id).isSome then
            updateUser s t.executor_id decActive
          else s) st2
      (Except.ok (), st3)

/-- The counter move of complete_order (order_service.py lines 430-431 and
440-441): clamp-decrement active, increment completed. -/
def completeMove (u : UserR) : UserR :=
  { u with active_orders_count := max 0 (u.active_orders_count - 1),
           completed_orders_count := u.completed_orders_count + 1 }

/-- OrderService.complete_order (order_service.py lines 395-445).  Same
checks as close; sets COMPLETED, moves the client's counters
(active clamp-decrement, completed increment) and every taking executor's
counters likewise. -/
def complete_order (st : DBState) (oid : String) (userId : Int) :
    Except Err Unit × DBState :=
  match findOrder st oid with
  | none => (Except.error Err.notFound, st)
  | some order =>
    if order.client_id ≠ userId then
      (Except.error Err.forbidden, st)
    else if order.status ≠ OrderStatus.active then
      (Except.error Err.gone, st)
    else if orderTakes st oid = [] then
      (Except.error Err.conflict, st)
    else
      let st1 := setStatus st oid OrderStatus.completed
      let st2 := updateUser st1 userId completeMove
      let st3 := (orderTakes st oid).foldl
        (fun s t =>
          if (findUser s t.executor_id).isSome then
            updateUser s t.executor_id completeMove
          else s) st2
      (Except.ok (), st3)

/-- BalanceService.refund_order (app/services/balance_service.py lines
48-63): credits the balance and appends a refund transaction linked to the
order.  The Python receives the live User object; here the caller's guard
guarantees the user exists, and an absent user is a no-op. -/
def refund_order (st : DBState) (userId : Int) (oid : String) (amount : Int) :
    DBState :=
  match findUser st userId with
  | none => st
  | some u =>
    let newBal := u.balance + amount
    let st1 := updateUser st userId (fun v => { v with balance := v.balance + amount })
    { st1 with transactions := st1.transactions ++
        [{ id := st1.transactions.length, user_id := userId,
           type := TransactionType.refund, amount := amount,
           balance_after := newBal, order_id := some oid,
           payment_method := none, external_transaction_id := none,
           description := "Refund for order " ++ oid }] }

/-- Earliest taken_at among a nonempty list of takes
(`min(take.taken_at for take in order.executor_takes)`). -/
def earliestTakeTime : List ExecutorTakeR → Nat
  | [] => 0
  | t :: rest => rest.foldl (fun m x => min m x.taken_at) t.taken_at

/-- Expiry branch of the sweeper (utils/timer.py lines 34-53): set EXPIRED,
clamp-decrement the client's counter (if the row exists) and every taking
executor's counter (if the row exists).  No refund. -/
def processExpiredOrder (st : DBState) (o : OrderR) : DBState :=
  let st1 := setStatus st o.id OrderStatus.expired
  let st2 :=
    if (findUser st1 o.client_id).isSome then
      updateUser st1 o.client_id decActive
    else st1
  (orderTakes st o.id).foldl
    (fun s t =>
      if (findUser s t.executor_id).isSome then
        updateUser s t.executor_id decActive
      else s) st2

/-- Per-take body of the sweeper's refund loop (utils/timer.py lines
74-89): when the executor row exists, clamp-decrement its counter and
refund the take cost through BalanceService.refund_order. -/
def sweepRefundStep (cfg : Settings) (oid : String) (s : DBState)
    (t : ExecutorTakeR) : DBState :=
  if (findUser s t.executor_id).isSome then
    refund_order (updateUser s t.executor_id decActive)
      t.executor_id oid cfg.order_take_cost
  else s

/-- No-response branch of the sweeper (utils/timer.py lines 61-89): set
CLOSED_NO_RESPONSE, clamp-decrement the client's counter, and for every
taking executor whose row exists, clamp-decrement its counter and refund
the take cost through BalanceService.refund_order. -/
def processNoResponseOrder (cfg : Settings) (st : DBState) (o : OrderR) : DBState :=
  let st1 := setStatus st o.id OrderStatus.closedNoResponse
  let st2 :=
    if (findUser st1 o.client_id).isSome then
      updateUser st1 o.client_id decActive
    else st1
  (orderTakes st o.id).foldl (sweepRefundStep cfg o.id) st2

/-- One loop iteration of the sweeper over a fetched ACTIVE order
(utils/timer.py lines 31-89): branch on expiry first, else on the
no-response deadline when takes exist and the customer never responded. -/
def sweepStep (cfg : Settings) (now : Nat) (st : DBState) (o : OrderR) : DBState :=
  if o.created_at + o.expires_in_minutes ≤ now then
    processExpiredOrder st o
  else if orderTakes st o.id ≠ [] ∧ o.customer_responded_at = none then
    if earliestTakeTime (orderTakes st o.id) + cfg.no_response_close_minutes ≤ now then
      processNoResponseOrder cfg st o
    else st
  else st

/-- auto_close_expired_orders (app/utils/timer.py lines 16-95): one sweep
pass over every order that is ACTIVE at the start of the tick. -/
def auto_close_expired_orders (cfg : Settings) (st : DBState) (now : Nat) : DBState :=
  (st.orders.filter (fun o => o.status == OrderStatus.active)).foldl
    (sweepStep cfg now) st

/-- CryptoPaymentService.process_paid_invoice (crypto_payment_service.py
lines 71-122).  Unknown external id: log and return unchanged; already
paid: return unchanged; user row absent: `scalar_one` raises and the
transaction rolls back; else credit the balance, append the recharge
transaction, and mark the invoice paid with the transaction link and
paid_at, all atomically. -/
def process_paid_invoice (st : DBState) (cryptoBotInvoiceId : Int) (now : Nat) :
    Except Err Unit × DBState :=
  match st.invoices.find? (fun i => i.crypto_bot_invoice_id == cryptoBotInvoiceId) with
  | none => (Except.ok (), st)
  | some invoice =>
    if invoice.status = InvoiceStatus.paid then
      (Except.ok (), st)
    else
      match findUser st invoice.user_id with
      | none => (Except.error Err.internalError, st)
      | some user =>
        let newBal := user.balance + invoice.amount
        let txnId := st.transactions.length
        let st1 := updateUser st invoice.user_id
          (fun u => { u with balance := u.balance + invoice.amount })
        let st2 : DBState :=
          { st1 with transactions := st1.transactions ++
              [{ id := txnId, user_id := invoice.user_id,
                 type := TransactionType.recharge, amount := invoice.amount,
                 balance_after := newBal, order_id := none,
                 payment_method := some "crypto_bot",
                 external_transaction_id := some (toString cryptoBotInvoiceId),
                 description := "Crypto Bot payment" }] }
        let markPaid : PaymentInvoiceR → PaymentInvoiceR := fun i =>
          if i.crypto_bot_invoice_id = cryptoBotInvoiceId then
            { i with status := InvoiceStatus.paid,
                     balance_transaction_id := some txnId,
                     paid_at := some now }
          else i
        let st3 : DBState := { st2 with invoices := st2.invoices.map markPaid }
        (Except.ok (), st3)

/-! ### Basic lemmas about the store helpers -/

theorem find?_map_idpred {α : Type} (g : α → α) (p : α → Bool)
    (hp : ∀ a, p (g a) = p a) (l : List α) :
    (l.map g).find? p = (l.find? p).map g := by
  induction l with
  | nil => rfl
  | cons a l ih =>
    by_cases h : p a = true
    · rw [List.map_cons, List.find?_cons_of_pos _ (by rw [hp a]; exact h),
        List.find?_cons_of_pos _ h, Option.map_some']
    · rw [List.map_cons, List.find?_cons_of_neg _ (by rw [hp a]; simpa using h),
        List.find?_cons_of_neg _ (by simpa using h), ih]

theorem updateUser_orders (st : DBState) (uid : Int) (f : UserR → UserR) :
    (updateUser st uid f).orders = st.orders := rfl

theorem updateUser_takes (st : DBState) (uid : Int) (f : UserR → UserR) :
    (updateUser st uid f).takes = st.takes := rfl

theorem updateUser_transactions (st : DBState) (uid : Int) (f : UserR → UserR) :
    (updateUser st uid f).transactions = st.transactions := rfl

theorem updateUser_invoices (st : DBState) (uid : Int) (f : UserR → UserR) :
    (updateUser st uid f).invoices = st.invoices := rfl

theorem mapOrder_users (st : DBState) (oid : String) (f : OrderR → OrderR) :
    (mapOrder st oid f).users = st.users := rfl

theorem mapOrder_takes (st : DBState) (oid : String) (f : OrderR → OrderR) :
    (mapOrder st oid f).takes = st.takes := rfl

theorem mapOrder_transactions (st : DBState) (oid : String) (f : OrderR → OrderR) :
    (mapOrder st oid f).transactions = st.transactions := rfl

theorem findUser_id {st : DBState} {uid : Int} {u : UserR}
    (h : findUser st uid = some u) : u.id = uid := by
  have := List.find?_some h
  simpa using this

theorem findOrder_id {st : DBState} {oid : String} {o : OrderR}
    (h : findOrder st oid = some o) : o.id = oid := by
  have := List.find?_some h
  simpa using this

theorem findUser_updateUser (st : DBState) (uid uid' : Int) (f : UserR → UserR)
    (hf : ∀ u, (f u).id = u.id) :
    findUser (updateUser st uid f) uid' =
      (findUser st uid').map (fun u => if u.id = uid then f u else u) := by
  unfold findUser updateUser
  exact find?_map_idpred _ _
    (fun a => by by_cases h : a.id = uid <;> simp [h, hf]) _

theorem findUser_updateUser_self {st : DBState} {uid : Int} {u : UserR}
    {f : UserR → UserR} (hf : ∀ v, (f v).id = v.id)
    (h : findUser st uid = some u) :
    findUser (updateUser st uid f) uid = some (f u) := by
  rw [findUser_updateUser st uid uid f hf, h, Option.map_some']
  simp [findUser_id h]

theorem findUser_updateUser_ne {st : DBState} {uid uid' : Int}
    {f : UserR → UserR} (hf : ∀ v, (f v).id = v.id) (hne : uid' ≠ uid) :
    findUser (updateUser st uid f) uid' = findUser st uid' := by
  rw [findUser_updateUser st uid uid' f hf]
  cases h : findUser st uid' with
  | none => rfl
  | some u => simp [findUser_id h, hne]

theorem findOrder_mapOrder (st : DBState) (oid oid' : String) (f : OrderR → OrderR)
    (hf : ∀ o, (f o).id = o.id) :
    findOrder (mapOrder st oid f) oid' =
      (findOrder st oid').map (fun o => if o.id = oid then f o else o) := by
  unfold findOrder mapOrder
  exact find?_map_idpred _ _
    (fun a => by by_cases h : a.id = oid <;> simp [h, hf]) _

theorem findOrder_setStatus_self {st : DBState} {oid : String} {o : OrderR}
    (s : OrderStatus) (h : findOrder st oid = some o) :
    findOrder (setStatus st oid s) oid = some { o with status := s } := by
  unfold setStatus
  rw [findOrder_mapOrder st oid oid (fun o => { o with status := s }) (fun o => rfl),
    h, Option.map_some']
  simp [findOrder_id h]

theorem findOrder_setStatus_ne {st : DBState} {oid oid' : String}
    (s : OrderStatus) (hne : oid' ≠ oid) :
    findOrder (setStatus st oid s) oid' = findOrder st oid' := by
  unfold setStatus
  rw [findOrder_mapOrder st oid oid' (fun o => { o with status := s }) (fun o => rfl)]
  cases h : findOrder st oid' with
  | none => rfl
  | some o => simp [findOrder_id h, hne]

theorem findUser_mapOrder (st : DBState) (oid : String) (f : OrderR → OrderR)
    (uid : Int) : findUser (mapOrder st oid f) uid = findUser st uid := rfl

theorem orderTakes_updateUser (st : DBState) (uid : Int) (f : UserR → UserR)
    (oid : String) : orderTakes (updateUser st uid f) oid = orderTakes st oid := rfl

theorem orderTakes_mapOrder (st : DBState) (oid oid' : String) (f : OrderR → OrderR) :
    orderTakes (mapOrder st oid f) oid' = orderTakes st oid' := rfl

theorem foldl_preserve {σ α : Type} (step : σ → α → σ) (P : σ → Prop)
    (h : ∀ s a, P s → P (step s a)) :
    ∀ (l : List α) (s : σ), P s → P (l.foldl step s)
  | [], _, hs => hs
  | a :: l, s, hs => foldl_preserve step P h l (step s a) (h s a hs)

/-! ### C4: webhook idempotence -/

/-- C4: processing a paid-invoice webhook is idempotent: an invoice already
in paid status is skipped with no state change; an unknown external id is
logged and skipped with no state change; and processing the same external
invoice id a second time leaves the state exactly as it was after the
first processing, so the balance is credited exactly once. -/
theorem c4_process_paid_invoice_idempotent (st : DBState) (cbid : Int)
    (now now' : Nat) :
    (∀ inv, st.invoices.find? (fun i => i.crypto_bot_invoice_id == cbid) = some inv →
        inv.status = InvoiceStatus.paid →
        process_paid_invoice st cbid now = (Except.ok (), st))
    ∧ (st.invoices.find? (fun i => i.crypto_bot_invoice_id == cbid) = none →
        process_paid_invoice st cbid now = (Except.ok (), st))
    ∧ (process_paid_invoice (process_paid_invoice st cbid now).2 cbid now').2 =
        (process_paid_invoice st cbid now).2 := by
  have skip : ∀ (s : DBState) (inv' : PaymentInvoiceR) (nw : Nat),
      s.invoices.find? (fun i => i.crypto_bot_invoice_id == cbid) = some inv' →
      inv'.status = InvoiceStatus.paid →
      process_paid_invoice s cbid nw = (Except.ok (), s) := by
    intro s inv' nw hf hpaid
    simp [process_paid_invoice, hf, hpaid]
  refine ⟨fun inv hfind hpaid => skip st inv now hfind hpaid, ?_, ?_⟩
  · intro hfind
    simp [process_paid_invoice, hfind]
  · cases hfind : st.invoices.find? (fun i => i.crypto_bot_invoice_id == cbid) with
    | none => simp [process_paid_invoice, hfind]
    | some inv =>
      by_cases hp : inv.status = InvoiceStatus.paid
      · simp [process_paid_invoice, hfind, hp]
      · cases hu : findUser st inv.user_id with
        | none => simp [process_paid_invoice, hfind, hp, hu]
        | some user =>
          have hcb : inv.crypto_bot_invoice_id = cbid := by
            have := List.find?_some hfind
            simpa using this
          have hinv : (process_paid_invoice st cbid now).2.invoices =
              st.invoices.map (fun i =>
                if i.crypto_bot_invoice_id = cbid then
                  { i with status := InvoiceStatus.paid,
                           balance_transaction_id := some st.transactions.length,
                           paid_at := some now }
                else i) := by
            simp [process_paid_invoice, hfind, hp, hu, updateUser]
          have hmap : ((process_paid_invoice st cbid now).2.invoices.find?
              (fun i => i.crypto_bot_invoice_id == cbid)) =
              some { inv with status := InvoiceStatus.paid,
                              balance_transaction_id := some st.transactions.length,
                              paid_at := some now } := by
            rw [hinv, find?_map_idpred _ _
              (fun a => by by_cases h : a.crypto_bot_invoice_id = cbid <;> simp [h]),
              hfind, Option.map_some', if_pos hcb]
          rw [skip _ _ now' hmap rfl]

/-! ### C6: unique active contact on create -/

/-- C6: creating an order fails with Conflict exactly when some ACTIVE
order already has the same contact; when no ACTIVE order has that contact
(for instance after that order reached a terminal status) creation
succeeds and inserts the new ACTIVE order; and creation preserves the
at-most-one-ACTIVE-order-per-contact invariant. -/
theorem c6_create_unique_active_contact (cfg : Settings) (st : DBState)
    (userId : Int) (req : CreateOrderRequest) (newId : String) (now : Nat) :
    ((create_order cfg st userId req newId now).1 = Except.error Err.conflict ↔
      ∃ o ∈ st.orders, o.contact = req.contact ∧ o.status = OrderStatus.active)
    ∧ ((∀ o ∈ st.orders, o.contact = req.contact → o.status ≠ OrderStatus.active) →
        ∃ newOrder, (create_order cfg st userId req newId now).1 = Except.ok newOrder
          ∧ newOrder ∈ (create_order cfg st userId req newId now).2.orders
          ∧ newOrder.contact = req.contact ∧ newOrder.status = OrderStatus.active)
    ∧ ((∀ o ∈ st.orders, o.status = OrderStatus.active →
          st.orders.countP
            (fun x => x.contact == o.contact && x.status == OrderStatus.active) ≤ 1) →
        ∀ o ∈ (create_order cfg st userId req newId now).2.orders,
          o.status = OrderStatus.active →
          (create_order cfg st userId req newId now).2.orders.countP
            (fun x => x.contact == o.contact && x.status == OrderStatus.active) ≤ 1) := by
  by_cases hc : st.orders.any
      (fun o => o.contact == req.contact && o.status == OrderStatus.active) = true
  · have hex : ∃ o ∈ st.orders, o.contact = req.contact ∧ o.status = OrderStatus.active := by
      simpa using hc
    refine ⟨by simp [create_order, hc, hex], ?_, ?_⟩
    · intro hnone
      obtain ⟨o, ho, hcontact, hact⟩ := hex
      exact absurd hact (hnone o ho hcontact)
    · intro hinv o ho hact
      have : (create_order cfg st userId req newId now).2 = st := by
        simp [create_order, hc]
      rw [this] at ho ⊢
      exact hinv o ho hact
  · have hnot : ∀ x ∈ st.orders, ¬(x.contact = req.contact ∧ x.status = OrderStatus.active) := by
      intro x hx
      simp only [List.any_eq_true, not_exists, not_and] at hc
      intro hand
      exact absurd (by simp [hand.1, hand.2]) (hc x hx)
    have horders : (create_order cfg st userId req newId now).2.orders =
        st.orders ++ [createdOrder cfg userId req newId now] := by
      simp [create_order, hc, updateUser]
    refine ⟨?_, ?_, ?_⟩
    · constructor
      · intro h
        exact absurd h (by simp [create_order, hc])
      · intro ⟨o, ho, hcontact, hact⟩
        exact absurd ⟨hcontact, hact⟩ (hnot o ho)
    · intro _
      refine ⟨createdOrder cfg userId req newId now,
        by simp [create_order, hc], ?_, rfl, rfl⟩
      rw [horders]
      exact List.mem_append_right _ (List.mem_singleton.mpr rfl)
    · intro hinv o ho hact
      rw [horders] at ho ⊢
      rw [List.countP_append]
      rcases List.mem_append.mp ho with hml | hnew
      · have hz : List.countP
            (fun x => x.contact == o.contact && x.status == OrderStatus.active)
            [createdOrder cfg userId req newId now] = 0 := by
          rw [List.countP_eq_zero]
          intro a ha
          rw [List.mem_singleton] at ha
          subst ha
          simp only [createdOrder, Bool.and_eq_true, beq_iff_eq]
          intro ⟨h1, _⟩
          exact hnot o hml ⟨h1.symm, hact⟩
        rw [hz]
        simpa using hinv o hml hact
      · rw [List.mem_singleton] at hnew
        have hoc : o.contact = req.contact := by rw [hnew]; rfl
        have hz : List.countP
            (fun x => x.contact == o.contact && x.status == OrderStatus.active)
            st.orders = 0 := by
          rw [List.countP_eq_zero]
          intro a ha
          simp only [Bool.and_eq_true, beq_iff_eq]
          intro ⟨h1, h2⟩
          exact hnot a ha ⟨h1.trans hoc, h2⟩
        rw [hz]
        simp only [List.countP_cons, List.countP_nil, Nat.zero_add]
        split_ifs <;> simp

/-! ### Branch characterizations of take_order -/

theorem take_order_eq_of_notActive {cfg : Settings} {st : DBState} {oid : String}
    {executorId : Int} {now : Nat} {executor : UserR} {order : OrderR}
    (hu : findUser st executorId = some executor)
    (ho : findOrder st oid = some order)
    (hstat : order.status ≠ OrderStatus.active) :
    take_order cfg st oid executorId now = (Except.error Err.gone, st) := by
  simp [take_order, hu, ho, hstat]

theorem take_order_eq_of_expired {cfg : Settings} {st : DBState} {oid : String}
    {executorId : Int} {now : Nat} {executor : UserR} {order : OrderR}
    (hu : findUser st executorId = some executor)
    (ho : findOrder st oid = some order)
    (hact : order.status = OrderStatus.active)
    (hexp : is_expired order now = true) :
    take_order cfg st oid executorId now =
      (Except.error Err.gone,
        if (findUser (setStatus st oid OrderStatus.expired) order.client_id).isSome then
          updateUser (setStatus st oid OrderStatus.expired) order.client_id decActive
        else setStatus st oid OrderStatus.expired) := by
  simp only [take_order, hu, ho, hact, hexp]
  simp

theorem take_order_eq_of_self {cfg : Settings} {st : DBState} {oid : String}
    {executorId : Int} {now : Nat} {executor : UserR} {order : OrderR}
    (hu : findUser st executorId = some executor)
    (ho : findOrder st oid = some order)
    (hact : order.status = OrderStatus.active)
    (hexp : is_expired order now = false)
    (hself : order.client_id = executorId) :
    take_order cfg st oid executorId now = (Except.error Err.forbidden, st) := by
  simp [take_order, hu, ho, hact, hexp, hself]

theorem take_order_eq_of_prior {cfg : Settings} {st : DBState} {oid : String}
    {executorId : Int} {now : Nat} {executor : UserR} {order : OrderR}
    (hu : findUser st executorId = some executor)
    (ho : findOrder st oid = some order)
    (hact : order.status = OrderStatus.active)
    (hexp : is_expired order now = false)
    (hself : order.client_id ≠ executorId)
    (hprior : (orderTakes st oid).any (fun t => t.executor_id == executorId) = true) :
    take_order cfg st oid executorId now =
      (Except.ok (order.contact, (orderTakes st oid).length, executor.balance), st) := by
  simp [take_order, hu, ho, hact, hexp, hself, hprior]

theorem take_order_eq_of_cap {cfg : Settings} {st : DBState} {oid : String}
    {executorId : Int} {now : Nat} {executor : UserR} {order : OrderR}
    (hu : findUser st executorId = some executor)
    (ho : findOrder st oid = some order)
    (hact : order.status = OrderStatus.active)
    (hexp : is_expired order now = false)
    (hself : order.client_id ≠ executorId)
    (hprior : (orderTakes st oid).any (fun t => t.executor_id == executorId) = false)
    (hcap : cfg.max_executors_per_order ≤ (orderTakes st oid).length) :
    take_order cfg st oid executorId now = (Except.error Err.conflict, st) := by
  simp [take_order, hu, ho, hact, hexp, hself, hprior, hcap]

theorem take_order_eq_of_poor {cfg : Settings} {st : DBState} {oid : String}
    {executorId : Int} {now : Nat} {executor : UserR} {order : OrderR}
    (hu : findUser st executorId = some executor)
    (ho : findOrder st oid = some order)
    (hact : order.status = OrderStatus.active)
    (hexp : is_expired order now = false)
    (hself : order.client_id ≠ executorId)
    (hprior : (orderTakes st oid).any (fun t => t.executor_id == executorId) = false)
    (hcap : (orderTakes st oid).length < cfg.max_executors_per_order)
    (hpoor : executor.balance < cfg.order_take_cost) :
    take_order cfg st oid executorId now = (Except.error Err.paymentRequired, st) := by
  simp [take_order, hu, ho, hact, hexp, hself, hprior, Nat.not_le.mpr hcap, hpoor]

/-- The order_take transaction row appended by a successful take. -/
def takeTxn (cfg : Settings) (st : DBState) (oid : String) (executorId : Int)
    (executor : UserR) : BalanceTransactionR :=
  { id := st.transactions.length, user_id := executorId,
    type := TransactionType.orderTake, amount := -cfg.order_take_cost,
    balance_after := executor.balance - cfg.order_take_cost,
    order_id := some oid, payment_method := none,
    external_transaction_id := none, description := "Took order " ++ oid }

theorem take_order_eq_of_success {cfg : Settings} {st : DBState} {oid : String}
    {executorId : Int} {now : Nat} {executor : UserR} {order : OrderR}
    (hu : findUser st executorId = some executor)
    (ho : findOrder st oid = some order)
    (hact : order.status = OrderStatus.active)
    (hexp : is_expired order now = false)
    (hself : order.client_id ≠ executorId)
    (hprior : (orderTakes st oid).any (fun t => t.executor_id == executorId) = false)
    (hcap : (orderTakes st oid).length < cfg.max_executors_per_order)
    (hrich : cfg.order_take_cost ≤ executor.balance) :
    take_order cfg st oid executorId now =
      (Except.ok (order.contact, (orderTakes st oid).length + 1,
          executor.balance - cfg.order_take_cost),
        { users := st.users.map (fun u => if u.id = executorId then debitTake cfg u else u),
          orders := st.orders,
          takes := st.takes ++ [{ order_id := oid, executor_id := executorId, taken_at := now }],
          transactions := st.transactions ++ [takeTxn cfg st oid executorId executor],
          invoices := st.invoices }) := by
  simp only [take_order, hu, ho]
  rw [if_neg (by simp [hact]), if_neg (by simp [hexp]), if_neg hself,
    if_neg (by simp [hprior]), if_neg (Nat.not_le.mpr hcap),
    if_neg (not_lt.mpr hrich)]
  simp [takeTxn, updateUser, orderTakes, List.filter_append]

theorem findUser_mk (us : List UserR) (os : List OrderR) (ts : List ExecutorTakeR)
    (txs : List BalanceTransactionR) (invs : List PaymentInvoiceR) (uid : Int) :
    findUser ⟨us, os, ts, txs, invs⟩ uid = us.find? (fun u => u.id == uid) := rfl

theorem findOrder_mk (us : List UserR) (os : List OrderR) (ts : List ExecutorTakeR)
    (txs : List BalanceTransactionR) (invs : List PaymentInvoiceR) (oid : String) :
    findOrder ⟨us, os, ts, txs, invs⟩ oid = os.find? (fun o => o.id == oid) := rfl

theorem orderTakes_mk (us : List UserR) (os : List OrderR) (ts : List ExecutorTakeR)
    (txs : List BalanceTransactionR) (invs : List PaymentInvoiceR) (oid : String) :
    orderTakes ⟨us, os, ts, txs, invs⟩ oid = ts.filter (fun t => t.order_id == oid) := rfl

theorem findOrder_updateUser (st : DBState) (uid : Int) (f : UserR → UserR)
    (oid : String) : findOrder (updateUser st uid f) oid = findOrder st oid := rfl

theorem findUser_setStatus (st : DBState) (oid : String) (s : OrderStatus)
    (uid : Int) : findUser (setStatus st oid s) uid = findUser st uid := rfl

/-! ### C2: payment gate on take -/

/-- C2: when a take call reaches the payment step (order ACTIVE, not
expired, executor is not the client, no prior take by this executor, take
count below the cap), it fails with PaymentRequired exactly when the
executor's balance is below the configured take cost; otherwise it debits
exactly the take cost, and the resulting balance is never below zero. -/
theorem c2_take_payment_gate (cfg : Settings) (st : DBState) (oid : String)
    (executorId : Int) (now : Nat) (executor : UserR) (order : OrderR)
    (hu : findUser st executorId = some executor)
    (ho : findOrder st oid = some order)
    (hact : order.status = OrderStatus.active)
    (hexp : is_expired order now = false)
    (hself : order.client_id ≠ executorId)
    (hprior : (orderTakes st oid).any (fun t => t.executor_id == executorId) = false)
    (hcap : (orderTakes st oid).length < cfg.max_executors_per_order) :
    ((take_order cfg st oid executorId now).1 = Except.error Err.paymentRequired ↔
      executor.balance < cfg.order_take_cost)
    ∧ (cfg.order_take_cost ≤ executor.balance →
        (take_order cfg st oid executorId now).1 =
          Except.ok (order.contact, (orderTakes st oid).length + 1,
            executor.balance - cfg.order_take_cost)
        ∧ 0 ≤ executor.balance - cfg.order_take_cost
        ∧ findUser (take_order cfg st oid executorId now).2 executorId =
            some (debitTake cfg executor)
        ∧ (debitTake cfg executor).balance = executor.balance - cfg.order_take_cost) := by
  by_cases hb : executor.balance < cfg.order_take_cost
  · rw [take_order_eq_of_poor hu ho hact hexp hself hprior hcap hb]
    exact ⟨by simp [hb], fun hge => absurd hb (not_lt.mpr hge)⟩
  · have hge := not_lt.mp hb
    rw [take_order_eq_of_success hu ho hact hexp hself hprior hcap hge]
    refine ⟨by simp [hb], fun _ => ⟨rfl, by omega, ?_, rfl⟩⟩
    have hu' : st.users.find? (fun u => u.id == executorId) = some executor := hu
    rw [findUser_mk, find?_map_idpred _ _
      (fun a => by by_cases h : a.id = executorId <;> simp [h, debitTake]) st.users,
      hu', Option.map_some', if_pos (findUser_id hu)]

/-! ### C3: idempotent re-take -/

/-- C3: take is idempotent per (order, executor): a take call by an
executor who already holds a take on an ACTIVE, non-expired order returns
the current contact, slot count and balance with the state unchanged (no
charge, no new transaction); and after any successful take call, repeating
the call returns the same triple and leaves the state exactly as after the
first call, so a (order, executor) pair is debited exactly once. -/
theorem c3_take_idempotent (cfg : Settings) (st : DBState) (oid : String)
    (executorId : Int) (now : Nat) :
    (∀ executor order, findUser st executorId = some executor →
      findOrder st oid = some order →
      order.status = OrderStatus.active →
      is_expired order now = false →
      order.client_id ≠ executorId →
      (orderTakes st oid).any (fun t => t.executor_id == executorId) = true →
      take_order cfg st oid executorId now =
        (Except.ok (order.contact, (orderTakes st oid).length, executor.balance), st))
    ∧ (∀ r, (take_order cfg st oid executorId now).1 = Except.ok r →
        take_order cfg (take_order cfg st oid executorId now).2 oid executorId now =
          (Except.ok r, (take_order cfg st oid executorId now).2)) := by
  constructor
  · intro executor order hu ho hact hexp hself hprior
    exact take_order_eq_of_prior hu ho hact hexp hself hprior
  · intro r hr
    cases hu : findUser st executorId with
    | none => rw [take_order] at hr; rw [hu] at hr; simp at hr
    | some executor =>
      cases ho : findOrder st oid with
      | none =>
        rw [take_order] at hr; rw [hu] at hr
        simp only [ho] at hr; simp at hr
      | some order =>
        by_cases hstat : order.status = OrderStatus.active
        · cases hexp : is_expired order now with
          | true =>
            rw [take_order_eq_of_expired hu ho hstat hexp] at hr
            simp at hr
          | false =>
            by_cases hself : order.client_id = executorId
            · rw [take_order_eq_of_self hu ho hstat hexp hself] at hr
              simp at hr
            · cases hprior : (orderTakes st oid).any
                  (fun t => t.executor_id == executorId) with
              | true =>
                have h2 := @take_order_eq_of_prior cfg st oid executorId now
                  executor order hu ho hstat hexp hself hprior
                rw [h2] at hr ⊢
                dsimp only at hr ⊢
                rw [h2, hr]
              | false =>
                by_cases hcap : cfg.max_executors_per_order ≤ (orderTakes st oid).length
                · rw [take_order_eq_of_cap hu ho hstat hexp hself hprior hcap] at hr
                  simp at hr
                · have hcap' := Nat.lt_of_not_le hcap
                  by_cases hb : executor.balance < cfg.order_take_cost
                  · rw [take_order_eq_of_poor hu ho hstat hexp hself hprior hcap' hb] at hr
                    simp at hr
                  · have hge := not_lt.mp hb
                    have h2 := @take_order_eq_of_success cfg st oid executorId now
                      executor order hu ho hstat hexp hself hprior hcap' hge
                    rw [h2] at hr ⊢
                    dsimp only at hr ⊢
                    simp only [Except.ok.injEq] at hr
                    subst hr
                    have hu2 : findUser
                        (⟨st.users.map (fun u => if u.id = executorId then debitTake cfg u else u),
                          st.orders,
                          st.takes ++ [{ order_id := oid, executor_id := executorId, taken_at := now }],
                          st.transactions ++ [takeTxn cfg st oid executorId executor],
                          st.invoices⟩ : DBState) executorId = some (debitTake cfg executor) := by
                      have hu' : st.users.find? (fun u => u.id == executorId) = some executor := hu
                      rw [findUser_mk, find?_map_idpred _ _
                        (fun a => by by_cases h : a.id = executorId <;> simp [h, debitTake]) st.users,
                        hu', Option.map_some', if_pos (findUser_id hu)]
                    have ho2 : findOrder
                        (⟨st.users.map (fun u => if u.id = executorId then debitTake cfg u else u),
                          st.orders,
                          st.takes ++ [{ order_id := oid, executor_id := executorId, taken_at := now }],
                          st.transactions ++ [takeTxn cfg st oid executorId executor],
                          st.invoices⟩ : DBState) oid = some order := ho
                    have hprior2 : ((orderTakes
                        (⟨st.users.map (fun u => if u.id = executorId then debitTake cfg u else u),
                          st.orders,
                          st.takes ++ [{ order_id := oid, executor_id := executorId, taken_at := now }],
                          st.transactions ++ [takeTxn cfg st oid executorId executor],
                          st.invoices⟩ : DBState) oid).any
                        (fun t => t.executor_id == executorId)) = true := by
                      rw [orderTakes_mk]
                      simp [List.filter_append]
                    rw [take_order_eq_of_prior hu2 ho2 hstat hexp hself hprior2]
                    rw [orderTakes_mk]
                    simp [orderTakes, List.filter_append, debitTake]
        · rw [take_order_eq_of_notActive hu ho hstat] at hr
          simp at hr

/-! ### C7: lazy expiry on take -/

/-- C7: a take call on an order whose status is ACTIVE but whose deadline
has passed transitions the order to EXPIRED, clamp-decrements the client's
active-order counter, and fails with Gone — the mutation persists even
though the call reports failure. -/
theorem c7_take_lazy_expiry (cfg : Settings) (st : DBState) (oid : String)
    (executorId : Int) (now : Nat) (executor : UserR) (order : OrderR)
    (hu : findUser st executorId = some executor)
    (ho : findOrder st oid = some order)
    (hact : order.status = OrderStatus.active)
    (hexp : is_expired order now = true) :
    (take_order cfg st oid executorId now).1 = Except.error Err.gone
    ∧ findOrder (take_order cfg st oid executorId now).2 oid =
        some { order with status := OrderStatus.expired }
    ∧ (∀ client, findUser st order.client_id = some client →
        findUser (take_order cfg st oid executorId now).2 order.client_id =
          some (decActive client)) := by
  rw [take_order_eq_of_expired hu ho hact hexp]
  refine ⟨rfl, ?_, ?_⟩
  · by_cases h : (findUser (setStatus st oid OrderStatus.expired) order.client_id).isSome
    · rw [if_pos h, findOrder_updateUser, findOrder_setStatus_self _ ho]
    · rw [if_neg h, findOrder_setStatus_self _ ho]
  · intro client hcl
    have hcl1 : findUser (setStatus st oid OrderStatus.expired) order.client_id =
        some client := by rw [findUser_setStatus]; exact hcl
    rw [if_pos (by rw [hcl1]; rfl)]
    exact findUser_updateUser_self (fun v => rfl) hcl1

/-! ### Demo fixtures for witnesses and counterexamples -/

def demoClient : UserR :=
  { id := 1, balance := 10, active_orders_count := 1, completed_orders_count := 0 }

def demoExec : UserR :=
  { id := 2, balance := 5, active_orders_count := 0, completed_orders_count := 0 }

def demoOrder : OrderR :=
  { id := "ord1", client_id := 1, category := "repair", description := "fix",
    city := "msk", contact := "@client", status := OrderStatus.active,
    city_locked := true, expires_in_minutes := 60, created_at := 0,
    customer_responded_at := none }

def demoCfg : Settings :=
  { order_lifetime_minutes := 60, no_response_close_minutes := 15,
    max_executors_per_order := 3, order_take_cost := 2 }

def demoSt : DBState :=
  { users := [demoClient, demoExec], orders := [demoOrder], takes := [],
    transactions := [], invoices := [] }

/-! ### C9: delete preconditions -/

/-- C9 counterexample: an order past its expiry deadline (created at 0,
lifetime 60, clock already at 120), owned by the caller, with no takes.
The claim says delete must fail with Gone; delete_order instead succeeds
and sets the status to DELETED — the source has no expiry check on the
delete path. -/
theorem c9_delete_no_expiry_check_counterexample :
    is_expired demoOrder 120 = true
    ∧ (delete_order demoSt "ord1" 1).1 = Except.ok ()
    ∧ (delete_order demoSt "ord1" 1).1 ≠ Except.error Err.gone
    ∧ findOrder (delete_order demoSt "ord1" 1).2 "ord1" =
        some { demoOrder with status := OrderStatus.deleted } :=
  ⟨rfl, rfl, fun h => Except.noConfusion h, rfl⟩

/-- C9 amended: delete(order_id, client) fails with NotFound exactly when
no order with that id is owned by the caller, fails with Forbidden when an
ExecutorTake exists, and otherwise succeeds, setting status DELETED and
clamp-decrementing the client's active-order counter.  Unlike update,
delete performs no expiry check: an order past its deadline is deleted
normally. -/
theorem c9_delete_preconditions (st : DBState) (oid : String) (userId : Int) :
    ((delete_order st oid userId).1 = Except.error Err.notFound ↔
      st.orders.find? (fun o => o.id == oid && o.client_id == userId) = none)
    ∧ (∀ order, st.orders.find? (fun o => o.id == oid && o.client_id == userId) = some order →
        orderTakes st oid ≠ [] →
        delete_order st oid userId = (Except.error Err.forbidden, st))
    ∧ (∀ order, st.orders.find? (fun o => o.id == oid && o.client_id == userId) = some order →
        orderTakes st oid = [] →
        delete_order st oid userId =
          (Except.ok (), updateUser (setStatus st oid OrderStatus.deleted) userId decActive)) := by
  refine ⟨?_, ?_, ?_⟩
  · cases hf : st.orders.find? (fun o => o.id == oid && o.client_id == userId) with
    | none => simp [delete_order, hf]
    | some order =>
      by_cases ht : orderTakes st oid = []
      · simp [delete_order, hf, ht]
      · simp [delete_order, hf, ht]
  · intro order hf ht
    simp [delete_order, hf, ht]
  · intro order hf ht
    simp [delete_order, hf, ht]

/-! ### Status machine notions and sweep structure lemmas -/

/-- The four terminal statuses are exactly the non-ACTIVE ones. -/
def isTerminal : OrderStatus → Bool
  | OrderStatus.active => false
  | _ => true

/-- One legal move of the status field: unchanged, or ACTIVE to a terminal
status. -/
def statusStep (a b : OrderStatus) : Prop :=
  b = a ∨ (a = OrderStatus.active ∧ isTerminal b = true)

/-- Relates a state to a later one: every order row keeps its id and its
status either is unchanged or moved from ACTIVE to a terminal status. -/
def ordersStatusStep (st st' : DBState) : Prop :=
  ∀ o ∈ st.orders, ∃ o' ∈ st'.orders, o'.id = o.id ∧ statusStep o.status o'.status

theorem findOrder_eq_of_mem {l : List OrderR}
    (h : (l.map (fun x => x.id)).Nodup) {o : OrderR} (ho : o ∈ l) :
    l.find? (fun x => x.id == o.id) = some o := by
  induction l with
  | nil => cases ho
  | cons a l ih =>
    rcases List.mem_cons.mp ho with rfl | hmem
    · exact List.find?_cons_of_pos _ (by simp)
    · by_cases ha : a.id = o.id
      · exfalso
        have : o.id ∈ l.map (fun x => x.id) := List.mem_map_of_mem _ hmem
        rw [List.map_cons, List.nodup_cons] at h
        exact h.1 (ha ▸ this)
      · rw [List.find?_cons_of_neg _ (by simp [ha])]
        exact ih (by rw [List.map_cons, List.nodup_cons] at h; exact h.2) hmem

theorem foldl_preserve_mem {σ α : Type} (step : σ → α → σ) (P : σ → Prop) :
    ∀ (l : List α), (∀ s a, a ∈ l → P s → P (step s a)) →
      ∀ (s : σ), P s → P (l.foldl step s)
  | [], _, _, hs => hs
  | a :: l, h, s, hs =>
    foldl_preserve_mem step P l
      (fun s' a' ha' => h s' a' (List.mem_cons_of_mem _ ha'))
      (step s a) (h s a (List.mem_cons_self a l) hs)

theorem foldl_orders_eq {α : Type} (step : DBState → α → DBState)
    (h : ∀ s a, (step s a).orders = s.orders) (l : List α) (s : DBState) :
    (l.foldl step s).orders = s.orders := by
  induction l generalizing s with
  | nil => rfl
  | cons a l ih => rw [List.foldl_cons, ih, h]

theorem foldl_takes_eq {α : Type} (step : DBState → α → DBState)
    (h : ∀ s a, (step s a).takes = s.takes) (l : List α) (s : DBState) :
    (l.foldl step s).takes = s.takes := by
  induction l generalizing s with
  | nil => rfl
  | cons a l ih => rw [List.foldl_cons, ih, h]

theorem refund_order_orders (st : DBState) (uid : Int) (oid : String) (amt : Int) :
    (refund_order st uid oid amt).orders = st.orders := by
  unfold refund_order
  cases findUser st uid <;> rfl

theorem refund_order_takes (st : DBState) (uid : Int) (oid : String) (amt : Int) :
    (refund_order st uid oid amt).takes = st.takes := by
  unfold refund_order
  cases findUser st uid <;> rfl

theorem refund_order_invoices (st : DBState) (uid : Int) (oid : String) (amt : Int) :
    (refund_order st uid oid amt).invoices = st.invoices := by
  unfold refund_order
  cases findUser st uid <;> rfl

theorem setStatus_orders (st : DBState) (oid : String) (s : OrderStatus) :
    (setStatus st oid s).orders =
      st.orders.map (fun r => if r.id = oid then { r with status := s } else r) := rfl

theorem processExpiredOrder_orders (st : DBState) (o : OrderR) :
    (processExpiredOrder st o).orders =
      st.orders.map (fun r => if r.id = o.id then { r with status := OrderStatus.expired } else r) := by
  unfold processExpiredOrder
  rw [foldl_orders_eq _ (fun s t => by split <;> rfl)]
  split <;> rfl

theorem processNoResponseOrder_orders (cfg : Settings) (st : DBState) (o : OrderR) :
    (processNoResponseOrder cfg st o).orders =
      st.orders.map (fun r => if r.id = o.id then { r with status := OrderStatus.closedNoResponse } else r) := by
  unfold processNoResponseOrder
  rw [foldl_orders_eq _ (fun s t => by
    unfold sweepRefundStep
    split <;> simp [refund_order_orders, updateUser_orders])]
  split <;> rfl

theorem processExpiredOrder_takes (st : DBState) (o : OrderR) :
    (processExpiredOrder st o).takes = st.takes := by
  unfold processExpiredOrder
  rw [foldl_takes_eq _ (fun s t => by split <;> rfl)]
  split <;> rfl

theorem processNoResponseOrder_takes (cfg : Settings) (st : DBState) (o : OrderR) :
    (processNoResponseOrder cfg st o).takes = st.takes := by
  unfold processNoResponseOrder
  rw [foldl_takes_eq _ (fun s t => by
    unfold sweepRefundStep
    split <;> simp [refund_order_takes, updateUser_takes])]
  split <;> rfl

theorem sweepStep_orders (cfg : Settings) (now : Nat) (s : DBState) (o : OrderR) :
    (sweepStep cfg now s o).orders = s.orders
    ∨ ∃ t, isTerminal t = true ∧ (sweepStep cfg now s o).orders =
        s.orders.map (fun r => if r.id = o.id then { r with status := t } else r) := by
  unfold sweepStep
  split
  · exact Or.inr ⟨OrderStatus.expired, rfl, processExpiredOrder_orders s o⟩
  · split
    · split
      · exact Or.inr ⟨OrderStatus.closedNoResponse, rfl, processNoResponseOrder_orders cfg s o⟩
      · exact Or.inl rfl
    · exact Or.inl rfl

theorem sweepStep_takes (cfg : Settings) (now : Nat) (s : DBState) (o : OrderR) :
    (sweepStep cfg now s o).takes = s.takes := by
  unfold sweepStep
  split
  · exact processExpiredOrder_takes s o
  · split
    · split
      · exact processNoResponseOrder_takes cfg s o
      · rfl
    · rfl

theorem auto_close_takes (cfg : Settings) (st : DBState) (now : Nat) :
    (auto_close_expired_orders cfg st now).takes = st.takes := by
  unfold auto_close_expired_orders
  exact foldl_takes_eq _ (fun s o => sweepStep_takes cfg now s o) _ st

/-! ### Operation-level order-status lemmas -/

theorem close_order_eq_gone {st : DBState} {oid : String} {userId : Int}
    {order : OrderR} (ho : findOrder st oid = some order)
    (howner : order.client_id = userId)
    (hstat : order.status ≠ OrderStatus.active) :
    close_order st oid userId = (Except.error Err.gone, st) := by
  simp [close_order, ho, howner, hstat]

theorem complete_order_eq_gone {st : DBState} {oid : String} {userId : Int}
    {order : OrderR} (ho : findOrder st oid = some order)
    (howner : order.client_id = userId)
    (hstat : order.status ≠ OrderStatus.active) :
    complete_order st oid userId = (Except.error Err.gone, st) := by
  simp [complete_order, ho, howner, hstat]

theorem close_order_eq_ok {st : DBState} {oid : String} {userId : Int}
    {order : OrderR} (ho : findOrder st oid = some order)
    (howner : order.client_id = userId)
    (hstat : order.status = OrderStatus.active)
    (ht : orderTakes st oid ≠ []) :
    close_order st oid userId = (Except.ok (),
      (orderTakes st oid).foldl
        (fun s t => if (findUser s t.executor_id).isSome then
          updateUser s t.executor_id decActive else s)
        (updateUser (setStatus st oid OrderStatus.closedNoResponse) userId decActive)) := by
  simp [close_order, ho, howner, hstat, ht]

theorem complete_order_eq_ok {st : DBState} {oid : String} {userId : Int}
    {order : OrderR} (ho : findOrder st oid = some order)
    (howner : order.client_id = userId)
    (hstat : order.status = OrderStatus.active)
    (ht : orderTakes st oid ≠ []) :
    complete_order st oid userId = (Except.ok (),
      (orderTakes st oid).foldl
        (fun s t => if (findUser s t.executor_id).isSome then
          updateUser s t.executor_id completeMove else s)
        (updateUser (setStatus st oid OrderStatus.completed) userId completeMove)) := by
  simp [complete_order, ho, howner, hstat, ht]

theorem take_order_orders_cases (cfg : Settings) (st : DBState) (oid : String)
    (executorId : Int) (now : Nat) :
    (take_order cfg st oid executorId now).2.orders = st.orders
    ∨ ∃ order, findOrder st oid = some order ∧ order.status = OrderStatus.active
        ∧ (take_order cfg st oid executorId now).2.orders =
            st.orders.map (fun r => if r.id = oid then { r with status := OrderStatus.expired } else r) := by
  cases hu : findUser st executorId with
  | none => left; simp [take_order, hu]
  | some executor =>
    cases ho : findOrder st oid with
    | none => left; simp [take_order, hu, ho]
    | some order =>
      by_cases hstat : order.status = OrderStatus.active
      · cases hexp : is_expired order now with
        | true =>
          right
          refine ⟨order, rfl, hstat, ?_⟩
          rw [take_order_eq_of_expired hu ho hstat hexp]
          dsimp only
          split <;> simp [updateUser_orders, setStatus_orders]
        | false =>
          left
          by_cases hself : order.client_id = executorId
          · rw [take_order_eq_of_self hu ho hstat hexp hself]
          · cases hprior : (orderTakes st oid).any (fun t => t.executor_id == executorId) with
            | true => rw [take_order_eq_of_prior hu ho hstat hexp hself hprior]
            | false =>
              by_cases hcap : cfg.max_executors_per_order ≤ (orderTakes st oid).length
              · rw [take_order_eq_of_cap hu ho hstat hexp hself hprior hcap]
              · by_cases hb : executor.balance < cfg.order_take_cost
                · rw [take_order_eq_of_poor hu ho hstat hexp hself hprior
                    (Nat.lt_of_not_le hcap) hb]
                · rw [take_order_eq_of_success hu ho hstat hexp hself hprior
                    (Nat.lt_of_not_le hcap) (not_lt.mp hb)]
      · left; rw [take_order_eq_of_notActive hu ho hstat]

theorem close_order_orders_cases (st : DBState) (oid : String) (userId : Int) :
    (close_order st oid userId).2.orders = st.orders
    ∨ ∃ order, findOrder st oid = some order ∧ order.status = OrderStatus.active
        ∧ (close_order st oid userId).2.orders =
            st.orders.map (fun r => if r.id = oid then { r with status := OrderStatus.closedNoResponse } else r) := by
  cases ho : findOrder st oid with
  | none => left; simp [close_order, ho]
  | some order =>
    by_cases howner : order.client_id = userId
    · by_cases hstat : order.status = OrderStatus.active
      · by_cases ht : orderTakes st oid = []
        · left; simp [close_order, ho, howner, hstat, ht]
        · right
          refine ⟨order, rfl, hstat, ?_⟩
          rw [close_order_eq_ok ho howner hstat ht]
          dsimp only
          rw [foldl_orders_eq _ (fun s t => by split <;> simp [updateUser_orders]),
            updateUser_orders, setStatus_orders]
      · left; rw [close_order_eq_gone ho howner hstat]
    · left; simp [close_order, ho, howner]

theorem complete_order_orders_cases (st : DBState) (oid : String) (userId : Int) :
    (complete_order st oid userId).2.orders = st.orders
    ∨ ∃ order, findOrder st oid = some order ∧ order.status = OrderStatus.active
        ∧ (complete_order st oid userId).2.orders =
            st.orders.map (fun r => if r.id = oid then { r with status := OrderStatus.completed } else r) := by
  cases ho : findOrder st oid with
  | none => left; simp [complete_order, ho]
  | some order =>
    by_cases howner : order.client_id = userId
    · by_cases hstat : order.status = OrderStatus.active
      · by_cases ht : orderTakes st oid = []
        · left; simp [complete_order, ho, howner, hstat, ht]
        · right
          refine ⟨order, rfl, hstat, ?_⟩
          rw [complete_order_eq_ok ho howner hstat ht]
          dsimp only
          rw [foldl_orders_eq _ (fun s t => by split <;> simp [updateUser_orders]),
            updateUser_orders, setStatus_orders]
      · left; rw [complete_order_eq_gone ho howner hstat]
    · left; simp [complete_order, ho, howner]

theorem ordersStatusStep_of_orders_eq {st st' : DBState}
    (h : st'.orders = st.orders) : ordersStatusStep st st' :=
  fun o ho => ⟨o, h ▸ ho, rfl, Or.inl rfl⟩

theorem statusStep_map_mem {orders : List OrderR} {oid : String}
    {t : OrderStatus} {order : OrderR}
    (hids : (orders.map (fun x => x.id)).Nodup)
    (hmem : order ∈ orders) (hoid : order.id = oid)
    (hact : order.status = OrderStatus.active) (hterm : isTerminal t = true) :
    ∀ o ∈ orders,
      ∃ o' ∈ orders.map (fun r => if r.id = oid then { r with status := t } else r),
        o'.id = o.id ∧ statusStep o.status o'.status := by
  intro o ho
  by_cases h : o.id = oid
  · have hoo : o = order :=
      List.inj_on_of_nodup_map hids ho hmem (h.trans hoid.symm)
    refine ⟨{ o with status := t }, ?_, rfl, Or.inr ⟨by rw [hoo]; exact hact, hterm⟩⟩
    have := List.mem_map_of_mem
      (fun r => if r.id = oid then { r with status := t } else r) ho
    simpa [h] using this
  · refine ⟨o, ?_, rfl, Or.inl rfl⟩
    have := List.mem_map_of_mem
      (fun r => if r.id = oid then { r with status := t } else r) ho
    simpa [h] using this

theorem sweep_ordersStatusStep (cfg : Settings) (st : DBState) (now : Nat)
    (hids : (st.orders.map (fun x => x.id)).Nodup) :
    ordersStatusStep st (auto_close_expired_orders cfg st now) := by
  unfold auto_close_expired_orders
  refine foldl_preserve_mem _ (ordersStatusStep st) _ ?_ st
    (fun o ho => ⟨o, ho, rfl, Or.inl rfl⟩)
  intro s a hmem hP o ho
  have hamem : a ∈ st.orders := (List.mem_filter.mp hmem).1
  have haact : a.status = OrderStatus.active := by
    simpa using (List.mem_filter.mp hmem).2
  obtain ⟨o', ho', hid, hstep⟩ := hP o ho
  rcases sweepStep_orders cfg now s a with heq | ⟨t, hterm, heq⟩
  · exact ⟨o', heq ▸ ho', hid, hstep⟩
  · by_cases hida : o'.id = a.id
    · refine ⟨{ o' with status := t }, ?_, hid, ?_⟩
      · rw [heq]
        have := List.mem_map_of_mem
          (fun r => if r.id = a.id then { r with status := t } else r) ho'
        simpa [hida] using this
      · right
        refine ⟨?_, hterm⟩
        have hoa : o = a :=
          List.inj_on_of_nodup_map hids ho hamem (hid ▸ hida)
        rw [hoa]; exact haact
    · refine ⟨o', ?_, hid, hstep⟩
      rw [heq]
      have := List.mem_map_of_mem
        (fun r => if r.id = a.id then { r with status := t } else r) ho'
      simpa [hida] using this

/-! ### C5: forward-only status machine -/

def demoStExpired : DBState :=
  { users := [demoClient, demoExec],
    orders := [{ demoOrder with status := OrderStatus.expired }],
    takes := [], transactions := [], invoices := [] }

/-- C5 counterexample: delete_order on an order whose status is already
EXPIRED (terminal) does not fail with Gone; it succeeds and rewrites the
status to DELETED, so a terminal order's status is changed by an
operation, contradicting the claim that all four terminal statuses are
final and that attempts on terminal orders fail with Gone. -/
theorem c5_terminal_not_final_counterexample :
    (findOrder demoStExpired "ord1").map (fun o => o.status) =
      some OrderStatus.expired
    ∧ (delete_order demoStExpired "ord1" 1).1 = Except.ok ()
    ∧ (delete_order demoStExpired "ord1" 1).1 ≠ Except.error Err.gone
    ∧ (findOrder (delete_order demoStExpired "ord1" 1).2 "ord1").map (fun o => o.status) =
        some OrderStatus.deleted :=
  ⟨rfl, rfl, fun h => Except.noConfusion h, rfl⟩

/-- C5 amended: take, close and complete on a non-ACTIVE order fail with
Gone and change nothing; the status transitions performed by take's lazy
expiry, close, complete and the sweeper all start from ACTIVE and end in a
terminal status (assuming distinct order ids).  delete_order, however,
performs no status or expiry check: any owned, take-free order — even one
already in a terminal status — is set to DELETED. -/
theorem c5_status_transitions (cfg : Settings) (st : DBState) (oid : String)
    (executorId userId : Int) (now : Nat) :
    (∀ executor order, findUser st executorId = some executor →
      findOrder st oid = some order → order.status ≠ OrderStatus.active →
      take_order cfg st oid executorId now = (Except.error Err.gone, st))
    ∧ (∀ order, findOrder st oid = some order → order.client_id = userId →
        order.status ≠ OrderStatus.active →
        close_order st oid userId = (Except.error Err.gone, st))
    ∧ (∀ order, findOrder st oid = some order → order.client_id = userId →
        order.status ≠ OrderStatus.active →
        complete_order st oid userId = (Except.error Err.gone, st))
    ∧ ((st.orders.map (fun x => x.id)).Nodup →
        ordersStatusStep st (take_order cfg st oid executorId now).2)
    ∧ ((st.orders.map (fun x => x.id)).Nodup →
        ordersStatusStep st (close_order st oid userId).2)
    ∧ ((st.orders.map (fun x => x.id)).Nodup →
        ordersStatusStep st (complete_order st oid userId).2)
    ∧ ((st.orders.map (fun x => x.id)).Nodup →
        ordersStatusStep st (auto_close_expired_orders cfg st now))
    ∧ (∀ order, st.orders.find? (fun o => o.id == oid && o.client_id == userId) = some order →
        orderTakes st oid = [] →
        delete_order st oid userId =
          (Except.ok (), updateUser (setStatus st oid OrderStatus.deleted) userId decActive)) := by
  refine ⟨?_, ?_, ?_, ?_, ?_, ?_, ?_, ?_⟩
  · intro executor order hu ho hstat
    exact take_order_eq_of_notActive hu ho hstat
  · intro order ho howner hstat
    exact close_order_eq_gone ho howner hstat
  · intro order ho howner hstat
    exact complete_order_eq_gone ho howner hstat
  · intro hids
    rcases take_order_orders_cases cfg st oid executorId now with heq | ⟨order, ho, hact, heq⟩
    · exact ordersStatusStep_of_orders_eq heq
    · intro o ho'
      rw [heq]
      exact statusStep_map_mem (t := OrderStatus.expired) hids
        (List.mem_of_find?_eq_some ho) (findOrder_id ho) hact rfl o ho'
  · intro hids
    rcases close_order_orders_cases st oid userId with heq | ⟨order, ho, hact, heq⟩
    · exact ordersStatusStep_of_orders_eq heq
    · intro o ho'
      rw [heq]
      exact statusStep_map_mem (t := OrderStatus.closedNoResponse) hids
        (List.mem_of_find?_eq_some ho) (findOrder_id ho) hact rfl o ho'
  · intro hids
    rcases complete_order_orders_cases st oid userId with heq | ⟨order, ho, hact, heq⟩
    · exact ordersStatusStep_of_orders_eq heq
    · intro o ho'
      rw [heq]
      exact statusStep_map_mem (t := OrderStatus.completed) hids
        (List.mem_of_find?_eq_some ho) (findOrder_id ho) hact rfl o ho'
  · exact sweep_ordersStatusStep cfg st now
  · intro order hf ht
    simp [delete_order, hf, ht]

/-! ### C1: executor-cap invariant -/

theorem orderTakes_setStatus (st : DBState) (oid : String) (s : OrderStatus)
    (oid' : String) : orderTakes (setStatus st oid s) oid' = orderTakes st oid' := rfl

theorem take_order_cap_preserved (cfg : Settings) (st : DBState) (oid : String)
    (executorId : Int) (now : Nat)
    (hbound : ∀ o ∈ st.orders, (orderTakes st o.id).length ≤ cfg.max_executors_per_order) :
    ∀ o ∈ (take_order cfg st oid executorId now).2.orders,
      (orderTakes (take_order cfg st oid executorId now).2 o.id).length ≤
        cfg.max_executors_per_order := by
  cases hu : findUser st executorId with
  | none =>
    have h : take_order cfg st oid executorId now = (Except.error Err.internalError, st) := by
      simp [take_order, hu]
    rw [h]; exact hbound
  | some executor =>
    cases ho : findOrder st oid with
    | none =>
      have h : take_order cfg st oid executorId now = (Except.error Err.notFound, st) := by
        simp [take_order, hu, ho]
      rw [h]; exact hbound
    | some order =>
      by_cases hstat : order.status = OrderStatus.active
      · cases hexp : is_expired order now with
        | true =>
          rw [take_order_eq_of_expired hu ho hstat hexp]
          dsimp only
          split
          · intro o hmem
            obtain ⟨o0, ho0, rfl⟩ := List.mem_map.mp hmem
            have hid : ((fun r => if r.id = oid then { r with status := OrderStatus.expired } else r) o0).id = o0.id := by
              dsimp only; split <;> rfl
            rw [orderTakes_updateUser, orderTakes_setStatus, hid]
            exact hbound o0 ho0
          · intro o hmem
            obtain ⟨o0, ho0, rfl⟩ := List.mem_map.mp hmem
            have hid : ((fun r => if r.id = oid then { r with status := OrderStatus.expired } else r) o0).id = o0.id := by
              dsimp only; split <;> rfl
            rw [orderTakes_setStatus, hid]
            exact hbound o0 ho0
        | false =>
          by_cases hself : order.client_id = executorId
          · rw [take_order_eq_of_self hu ho hstat hexp hself]; exact hbound
          · cases hprior : (orderTakes st oid).any (fun t => t.executor_id == executorId) with
            | true => rw [take_order_eq_of_prior hu ho hstat hexp hself hprior]; exact hbound
            | false =>
              by_cases hcap : cfg.max_executors_per_order ≤ (orderTakes st oid).length
              · rw [take_order_eq_of_cap hu ho hstat hexp hself hprior hcap]; exact hbound
              · have hcap' := Nat.lt_of_not_le hcap
                by_cases hb : executor.balance < cfg.order_take_cost
                · rw [take_order_eq_of_poor hu ho hstat hexp hself hprior hcap' hb]
                  exact hbound
                · rw [take_order_eq_of_success hu ho hstat hexp hself hprior hcap'
                    (not_lt.mp hb)]
                  intro o hmem
                  rw [orderTakes_mk, List.filter_append]
                  by_cases hoid : o.id = oid
                  · have hsingle : List.filter (fun t : ExecutorTakeR => t.order_id == o.id)
                        ([{ order_id := oid, executor_id := executorId, taken_at := now }] : List ExecutorTakeR) =
                        [{ order_id := oid, executor_id := executorId, taken_at := now }] := by
                      simp [hoid]
                    rw [hsingle, List.length_append]
                    have : (orderTakes st o.id).length < cfg.max_executors_per_order := by
                      rw [hoid]; exact hcap'
                    simpa [orderTakes] using this
                  · have hsingle : List.filter (fun t : ExecutorTakeR => t.order_id == o.id)
                        ([{ order_id := oid, executor_id := executorId, taken_at := now }] : List ExecutorTakeR) =
                        [] := by
                      simp [Ne.symm hoid]
                    rw [hsingle, List.append_nil]
                    have := hbound o hmem
                    simpa [orderTakes] using this
      · rw [take_order_eq_of_notActive hu ho hstat]; exact hbound

/-- C1: the number of ExecutorTake rows of every order never exceeds the
configured cap: a take call on an ACTIVE, non-expired order by an eligible
executor with no prior take fails with Conflict (with no state change)
whenever the count is already at the cap, take preserves the
count-at-most-cap invariant, and every other operation leaves the take
table unchanged. -/
theorem c1_take_cap_invariant (cfg : Settings) (st : DBState) (oid : String)
    (executorId userId : Int) (now : Nat) (req : CreateOrderRequest)
    (ureq : UpdateOrderRequest) (newId : String) (cbid : Int)
    (hbound : ∀ o ∈ st.orders, (orderTakes st o.id).length ≤ cfg.max_executors_per_order) :
    (∀ o ∈ (take_order cfg st oid executorId now).2.orders,
        (orderTakes (take_order cfg st oid executorId now).2 o.id).length ≤
          cfg.max_executors_per_order)
    ∧ (∀ executor order, findUser st executorId = some executor →
        findOrder st oid = some order → order.status = OrderStatus.active →
        is_expired order now = false → order.client_id ≠ executorId →
        (orderTakes st oid).any (fun t => t.executor_id == executorId) = false →
        cfg.max_executors_per_order ≤ (orderTakes st oid).length →
        take_order cfg st oid executorId now = (Except.error Err.conflict, st))
    ∧ (create_order cfg st userId req newId now).2.takes = st.takes
    ∧ (update_order st oid userId ureq now).2.takes = st.takes
    ∧ (delete_order st oid userId).2.takes = st.takes
    ∧ (respond_to_order st oid userId now).2.takes = st.takes
    ∧ (close_order st oid userId).2.takes = st.takes
    ∧ (complete_order st oid userId).2.takes = st.takes
    ∧ (auto_close_expired_orders cfg st now).takes = st.takes
    ∧ (process_paid_invoice st cbid now).2.takes = st.takes := by
  refine ⟨take_order_cap_preserved cfg st oid executorId now hbound, ?_, ?_, ?_, ?_, ?_, ?_, ?_,
    auto_close_takes cfg st now, ?_⟩
  · intro executor order hu ho hact hexp hself hprior hcap
    exact take_order_eq_of_cap hu ho hact hexp hself hprior hcap
  · unfold create_order
    split <;> rfl
  · unfold update_order
    split
    · rfl
    · split
      · rfl
      · split <;> rfl
  · unfold delete_order
    split
    · rfl
    · split <;> rfl
  · unfold respond_to_order
    split
    · rfl
    · split
      · rfl
      · split
        · rfl
        · split
          · rfl
          · split <;> rfl
  · unfold close_order
    split
    · rfl
    · split
      · rfl
      · split
        · rfl
        · split
          · rfl
          · dsimp only
            rw [foldl_takes_eq _ (fun s t => by split <;> rfl)]
            rfl
  · unfold complete_order
    split
    · rfl
    · split
      · rfl
      · split
        · rfl
        · split
          · rfl
          · dsimp only
            rw [foldl_takes_eq _ (fun s t => by split <;> rfl)]
            rfl
  · unfold process_paid_invoice
    split
    · rfl
    · split
      · rfl
      · split <;> rfl

/-! ### C10: active-order counters never negative -/

/-- Invariant: every user row has a non-negative active-order counter. -/
def countersNonneg (st : DBState) : Prop :=
  ∀ u ∈ st.users, 0 ≤ u.active_orders_count

theorem countersNonneg_users_eq {st st' : DBState} (h : st'.users = st.users)
    (hc : countersNonneg st) : countersNonneg st' :=
  fun u hu => hc u (h ▸ hu)

theorem countersNonneg_updateUser {st : DBState} {uid : Int} {f : UserR → UserR}
    (h : countersNonneg st)
    (hf : ∀ u, 0 ≤ u.active_orders_count → 0 ≤ (f u).active_orders_count) :
    countersNonneg (updateUser st uid f) := by
  intro u hu
  obtain ⟨u0, hu0, rfl⟩ := List.mem_map.mp hu
  by_cases hc : u0.id = uid
  · simpa [hc] using hf u0 (h u0 hu0)
  · simpa [hc] using h u0 hu0

theorem decActive_nonneg : ∀ u : UserR,
    0 ≤ u.active_orders_count → 0 ≤ (decActive u).active_orders_count :=
  fun _ _ => le_max_left 0 _

theorem completeMove_nonneg : ∀ u : UserR,
    0 ≤ u.active_orders_count → 0 ≤ (completeMove u).active_orders_count :=
  fun _ _ => le_max_left 0 _

theorem debitTake_nonneg (cfg : Settings) : ∀ u : UserR,
    0 ≤ u.active_orders_count → 0 ≤ (debitTake cfg u).active_orders_count :=
  fun u hu => by simp only [debitTake]; omega

theorem countersNonneg_refund {st : DBState} (uid : Int) (oid : String)
    (amt : Int) (h : countersNonneg st) :
    countersNonneg (refund_order st uid oid amt) := by
  unfold refund_order
  cases hfind : findUser st uid with
  | none => exact h
  | some u =>
    intro v hv
    exact countersNonneg_updateUser
      (f := fun v => { v with balance := v.balance + amt }) h (fun _ hh => hh) v hv

theorem take_order_users_cases (cfg : Settings) (st : DBState) (oid : String)
    (executorId : Int) (now : Nat) :
    (take_order cfg st oid executorId now).2.users = st.users
    ∨ (∃ cid, (take_order cfg st oid executorId now).2.users =
        (updateUser st cid decActive).users)
    ∨ (take_order cfg st oid executorId now).2.users =
        (updateUser st executorId (debitTake cfg)).users := by
  cases hu : findUser st executorId with
  | none => left; simp [take_order, hu]
  | some executor =>
    cases ho : findOrder st oid with
    | none => left; simp [take_order, hu, ho]
    | some order =>
      by_cases hstat : order.status = OrderStatus.active
      · cases hexp : is_expired order now with
        | true =>
          rw [take_order_eq_of_expired hu ho hstat hexp]
          dsimp only
          split
          · right; left; exact ⟨order.client_id, rfl⟩
          · left; rfl
        | false =>
          by_cases hself : order.client_id = executorId
          · left; rw [take_order_eq_of_self hu ho hstat hexp hself]
          · cases hprior : (orderTakes st oid).any (fun t => t.executor_id == executorId) with
            | true => left; rw [take_order_eq_of_prior hu ho hstat hexp hself hprior]
            | false =>
              by_cases hcap : cfg.max_executors_per_order ≤ (orderTakes st oid).length
              · left; rw [take_order_eq_of_cap hu ho hstat hexp hself hprior hcap]
              · by_cases hb : executor.balance < cfg.order_take_cost
                · left
                  rw [take_order_eq_of_poor hu ho hstat hexp hself hprior
                    (Nat.lt_of_not_le hcap) hb]
                · right; right
                  rw [take_order_eq_of_success hu ho hstat hexp hself hprior
                    (Nat.lt_of_not_le hcap) (not_lt.mp hb)]
                  rfl
      · left; rw [take_order_eq_of_notActive hu ho hstat]

theorem sweepStep_countersNonneg (cfg : Settings) (now : Nat) :
    ∀ (s : DBState) (a : OrderR), countersNonneg s →
      countersNonneg (sweepStep cfg now s a) := by
  intro s a hs
  have hbase : ∀ (s1 : DBState) (cid : Int), countersNonneg s1 →
      countersNonneg (if (findUser s1 cid).isSome then updateUser s1 cid decActive else s1) := by
    intro s1 cid hs1
    split
    · exact countersNonneg_updateUser hs1 decActive_nonneg
    · exact hs1
  unfold sweepStep
  split
  · unfold processExpiredOrder
    refine foldl_preserve _ countersNonneg ?_ _ _ ?_
    · intro s' t hs'
      split
      · exact countersNonneg_updateUser hs' decActive_nonneg
      · exact hs'
    · exact hbase _ _ (countersNonneg_users_eq rfl hs)
  · split
    · split
      · unfold processNoResponseOrder
        refine foldl_preserve _ countersNonneg ?_ _ _ ?_
        · intro s' t hs'
          unfold sweepRefundStep
          split
          · exact countersNonneg_refund _ _ _ (countersNonneg_updateUser hs' decActive_nonneg)
          · exact hs'
        · exact hbase _ _ (countersNonneg_users_eq rfl hs)
      · exact hs
    · exact hs

/-- C10: every operation keeps all users' active_orders_count
non-negative: every decrement in the code is written as
`max(0, count - 1)`, and increments preserve non-negativity, so
`countersNonneg` is an invariant of all ten operations. -/
theorem c10_counters_nonneg (cfg : Settings) (st : DBState) (oid : String)
    (executorId userId : Int) (now : Nat) (req : CreateOrderRequest)
    (ureq : UpdateOrderRequest) (newId : String) (cbid : Int)
    (h : countersNonneg st) :
    countersNonneg (create_order cfg st userId req newId now).2
    ∧ countersNonneg (update_order st oid userId ureq now).2
    ∧ countersNonneg (delete_order st oid userId).2
    ∧ countersNonneg (take_order cfg st oid executorId now).2
    ∧ countersNonneg (respond_to_order st oid userId now).2
    ∧ countersNonneg (close_order st oid userId).2
    ∧ countersNonneg (complete_order st oid userId).2
    ∧ countersNonneg (auto_close_expired_orders cfg st now)
    ∧ countersNonneg (process_paid_invoice st cbid now).2 := by
  refine ⟨?_, ?_, ?_, ?_, ?_, ?_, ?_, ?_, ?_⟩
  · unfold create_order
    split
    · exact h
    · exact countersNonneg_updateUser (countersNonneg_users_eq rfl h)
        (fun v hv => by show 0 ≤ v.active_orders_count + 1; omega)
  · unfold update_order
    split
    · exact h
    · split
      · exact h
      · split
        · exact h
        · exact countersNonneg_users_eq rfl h
  · unfold delete_order
    split
    · exact h
    · split
      · exact h
      · exact countersNonneg_updateUser (countersNonneg_users_eq rfl h) decActive_nonneg
  · rcases take_order_users_cases cfg st oid executorId now with heq | ⟨cid, heq⟩ | heq
    · exact countersNonneg_users_eq heq h
    · exact countersNonneg_users_eq heq (countersNonneg_updateUser h decActive_nonneg)
    · exact countersNonneg_users_eq heq
        (countersNonneg_updateUser h (debitTake_nonneg cfg))
  · unfold respond_to_order
    split
    · exact h
    · split
      · exact h
      · split
        · exact h
        · split
          · exact h
          · split
            · exact h
            · exact countersNonneg_users_eq rfl h
  · unfold close_order
    split
    · exact h
    · split
      · exact h
      · split
        · exact h
        · split
          · exact h
          · dsimp only
            refine foldl_preserve _ countersNonneg ?_ _ _ ?_
            · intro s' t hs'
              split
              · exact countersNonneg_updateUser hs' decActive_nonneg
              · exact hs'
            · exact countersNonneg_updateUser (countersNonneg_users_eq rfl h)
                decActive_nonneg
  · unfold complete_order
    split
    · exact h
    · split
      · exact h
      · split
        · exact h
        · split
          · exact h
          · dsimp only
            refine foldl_preserve _ countersNonneg ?_ _ _ ?_
            · intro s' t hs'
              split
              · exact countersNonneg_updateUser hs' completeMove_nonneg
              · exact hs'
            · exact countersNonneg_updateUser (countersNonneg_users_eq rfl h)
                completeMove_nonneg
  · unfold auto_close_expired_orders
    exact foldl_preserve _ countersNonneg
      (fun s a hs => sweepStep_countersNonneg cfg now s a hs) _ st h
  · unfold process_paid_invoice
    split
    · exact h
    · split
      · exact h
      · split
        · exact h
        · exact countersNonneg_users_eq rfl
            (countersNonneg_updateUser h (fun _ hh => hh))

/-! ### C8 infrastructure: user ids, transactions and lookups across the sweep -/

def userIds (st : DBState) : List Int := st.users.map (fun u => u.id)

theorem userIds_updateUser (st : DBState) (uid : Int) (f : UserR → UserR)
    (hf : ∀ u, (f u).id = u.id) : userIds (updateUser st uid f) = userIds st := by
  unfold userIds updateUser
  dsimp only
  rw [List.map_map]
  exact List.map_congr_left (fun a _ => by
    by_cases h : a.id = uid <;> simp [h, hf])

theorem userIds_refund (st : DBState) (uid : Int) (oid : String) (amt : Int) :
    userIds (refund_order st uid oid amt) = userIds st := by
  unfold refund_order
  cases hfind : findUser st uid with
  | none => rfl
  | some u =>
    exact userIds_updateUser st uid _ (fun v => rfl)

theorem findUser_isSome_iff (st : DBState) (uid : Int) :
    (findUser st uid).isSome = true ↔ uid ∈ userIds st := by
  unfold findUser userIds
  rw [List.find?_isSome]
  constructor
  · intro ⟨u, hu, hp⟩
    exact List.mem_map.mpr ⟨u, hu, by simpa using hp⟩
  · intro h
    obtain ⟨u, hu, hid⟩ := List.mem_map.mp h
    exact ⟨u, hu, by simp [hid]⟩

theorem userIds_sweepRefundStep (cfg : Settings) (oid : String) (s : DBState)
    (t : ExecutorTakeR) : userIds (sweepRefundStep cfg oid s t) = userIds s := by
  unfold sweepRefundStep
  split
  · rw [userIds_refund]
    exact userIds_updateUser s t.executor_id decActive (fun v => rfl)
  · rfl

theorem foldl_userIds_eq {α : Type} (step : DBState → α → DBState)
    (h : ∀ s a, userIds (step s a) = userIds s) (l : List α) (s : DBState) :
    userIds (l.foldl step s) = userIds s := by
  induction l generalizing s with
  | nil => rfl
  | cons a l ih => rw [List.foldl_cons, ih, h]

theorem userIds_sweepStep (cfg : Settings) (now : Nat) (s : DBState) (a : OrderR) :
    userIds (sweepStep cfg now s a) = userIds s := by
  have hbase : ∀ (s1 : DBState) (cid : Int),
      userIds (if (findUser s1 cid).isSome then updateUser s1 cid decActive else s1) =
        userIds s1 := by
    intro s1 cid
    split
    · exact userIds_updateUser s1 cid decActive (fun v => rfl)
    · rfl
  unfold sweepStep
  split
  · unfold processExpiredOrder
    rw [foldl_userIds_eq _ (fun s' t => by
      split
      · exact userIds_updateUser s' t.executor_id decActive (fun v => rfl)
      · rfl)]
    exact hbase _ _
  · split
    · split
      · unfold processNoResponseOrder
        rw [foldl_userIds_eq _ (fun s' t => userIds_sweepRefundStep cfg a.id s' t)]
        exact hbase _ _
      · rfl
    · rfl

theorem foldl_transactions_eq {α : Type} (step : DBState → α → DBState)
    (h : ∀ s a, (step s a).transactions = s.transactions) (l : List α) (s : DBState) :
    (l.foldl step s).transactions = s.transactions := by
  induction l generalizing s with
  | nil => rfl
  | cons a l ih => rw [List.foldl_cons, ih, h]

theorem processExpiredOrder_transactions (st : DBState) (o : OrderR) :
    (processExpiredOrder st o).transactions = st.transactions := by
  unfold processExpiredOrder
  rw [foldl_transactions_eq _ (fun s t => by split <;> rfl)]
  split <;> rfl

theorem txn_mem_refund {txn : BalanceTransactionR} {st : DBState}
    (uid : Int) (oid : String) (amt : Int) (h : txn ∈ st.transactions) :
    txn ∈ (refund_order st uid oid amt).transactions := by
  unfold refund_order
  cases hfind : findUser st uid with
  | none => exact h
  | some u => exact List.mem_append_left _ h

theorem txn_mem_sweepRefundStep {txn : BalanceTransactionR} (cfg : Settings)
    (oid : String) (s : DBState) (t : ExecutorTakeR)
    (h : txn ∈ s.transactions) : txn ∈ (sweepRefundStep cfg oid s t).transactions := by
  unfold sweepRefundStep
  split
  · exact txn_mem_refund _ _ _ h
  · exact h

theorem txn_mem_sweepStep {txn : BalanceTransactionR} (cfg : Settings) (now : Nat)
    (s : DBState) (a : OrderR) (h : txn ∈ s.transactions) :
    txn ∈ (sweepStep cfg now s a).transactions := by
  have hbase : ∀ (s1 : DBState) (cid : Int), txn ∈ s1.transactions →
      txn ∈ (if (findUser s1 cid).isSome then updateUser s1 cid decActive else s1).transactions := by
    intro s1 cid h1
    split
    · exact h1
    · exact h1
  unfold sweepStep
  split
  · rw [processExpiredOrder_transactions]; exact h
  · split
    · split
      · unfold processNoResponseOrder
        dsimp only
        refine foldl_preserve _ (fun s' : DBState => txn ∈ s'.transactions) ?_ _ _ ?_
        · intro s' t h'
          exact txn_mem_sweepRefundStep cfg a.id s' t h'
        · exact hbase _ _ h
      · exact h
    · exact h

theorem findOrder_congr {st1 st2 : DBState} (h : st1.orders = st2.orders)
    (oid : String) : findOrder st1 oid = findOrder st2 oid := by
  unfold findOrder; rw [h]

theorem findOrder_sweepStep_ne (cfg : Settings) (now : Nat) (s : DBState)
    (a : OrderR) {oid : String} (hne : oid ≠ a.id) :
    findOrder (sweepStep cfg now s a) oid = findOrder s oid := by
  rcases sweepStep_orders cfg now s a with heq | ⟨t, _, heq⟩
  · unfold findOrder; rw [heq]
  · have h2 : (sweepStep cfg now s a).orders = (setStatus s a.id t).orders := by
      rw [heq, setStatus_orders]
    rw [findOrder_congr h2, findOrder_setStatus_ne _ hne]

/-- Net effect of the sweeper's no-response branch on one taking executor:
clamp-decrement the active counter and credit back the take cost. -/
def refundMove (cfg : Settings) (u : UserR) : UserR :=
  { u with active_orders_count := max 0 (u.active_orders_count - 1),
           balance := u.balance + cfg.order_take_cost }

theorem findUser_refund_ne {st : DBState} {uid uid' : Int} {oid : String}
    {amt : Int} (hne : uid' ≠ uid) :
    findUser (refund_order st uid oid amt) uid' = findUser st uid' := by
  unfold refund_order
  cases hfind : findUser st uid with
  | none => rfl
  | some u =>
    exact findUser_updateUser_ne
      (f := fun v => { v with balance := v.balance + amt }) (fun v => rfl) hne

theorem findUser_refund_self {st : DBState} {uid : Int} {oid : String}
    {amt : Int} {u : UserR} (h : findUser st uid = some u) :
    findUser (refund_order st uid oid amt) uid =
      some { u with balance := u.balance + amt } := by
  unfold refund_order
  rw [h]
  exact findUser_updateUser_self (fun v => rfl) h

theorem sweepRefund_fold_txn (cfg : Settings) (oid : String) :
    ∀ (ts : List ExecutorTakeR) (s : DBState) (t : ExecutorTakeR),
      t ∈ ts → t.executor_id ∈ userIds s →
      ∃ txn ∈ (ts.foldl (sweepRefundStep cfg oid) s).transactions,
        txn.user_id = t.executor_id ∧ txn.type = TransactionType.refund
          ∧ txn.amount = cfg.order_take_cost ∧ txn.order_id = some oid := by
  intro ts
  induction ts with
  | nil => intro s t ht; cases ht
  | cons t' ts ih =>
    intro s t ht hmem
    rw [List.foldl_cons]
    rcases List.mem_cons.mp ht with rfl | htl
    · have hsome : (findUser s t.executor_id).isSome = true :=
        (findUser_isSome_iff s t.executor_id).mpr hmem
      have hstep : sweepRefundStep cfg oid s t =
          refund_order (updateUser s t.executor_id decActive) t.executor_id oid
            cfg.order_take_cost := by
        unfold sweepRefundStep; rw [if_pos hsome]
      obtain ⟨u, hu⟩ := Option.isSome_iff_exists.mp hsome
      have hu2 : findUser (updateUser s t.executor_id decActive) t.executor_id =
          some (decActive u) := findUser_updateUser_self (fun v => rfl) hu
      have htxn : ∃ txn ∈ (sweepRefundStep cfg oid s t).transactions,
          txn.user_id = t.executor_id ∧ txn.type = TransactionType.refund
            ∧ txn.amount = cfg.order_take_cost ∧ txn.order_id = some oid := by
        rw [hstep]
        unfold refund_order
        rw [hu2]
        exact ⟨_, List.mem_append_right _ (List.mem_singleton.mpr rfl), rfl, rfl, rfl, rfl⟩
      obtain ⟨txn, htmem, hfields⟩ := htxn
      refine ⟨txn, ?_, hfields⟩
      exact foldl_preserve _ (fun s' : DBState => txn ∈ s'.transactions)
        (fun s' a h' => txn_mem_sweepRefundStep cfg oid s' a h') ts _ htmem
    · exact ih (sweepRefundStep cfg oid s t') t htl
        (by rw [userIds_sweepRefundStep]; exact hmem)

theorem sweepRefund_fold_executor (cfg : Settings) (oid : String) :
    ∀ (ts : List ExecutorTakeR) (s : DBState) (t : ExecutorTakeR) (e : UserR),
      t ∈ ts → (ts.map (fun x => x.executor_id)).Nodup →
      findUser s t.executor_id = some e →
      findUser (ts.foldl (sweepRefundStep cfg oid) s) t.executor_id =
        some (refundMove cfg e) := by
  intro ts
  induction ts with
  | nil => intro s t e ht; cases ht
  | cons t' ts ih =>
    intro s t e ht hnd he
    rw [List.map_cons, List.nodup_cons] at hnd
    rw [List.foldl_cons]
    rcases List.mem_cons.mp ht with rfl | htl
    · have hsome : (findUser s t.executor_id).isSome = true := by rw [he]; rfl
      have hstep : sweepRefundStep cfg oid s t =
          refund_order (updateUser s t.executor_id decActive) t.executor_id oid
            cfg.order_take_cost := by
        unfold sweepRefundStep; rw [if_pos hsome]
      have hud : findUser (updateUser s t.executor_id decActive) t.executor_id =
          some (decActive e) := findUser_updateUser_self (fun v => rfl) he
      have hf : findUser (sweepRefundStep cfg oid s t) t.executor_id =
          some (refundMove cfg e) := by
        rw [hstep, findUser_refund_self hud]
        rfl
      refine foldl_preserve_mem _ (fun s' : DBState =>
        findUser s' t.executor_id = some (refundMove cfg e)) ts ?_ _ hf
      intro s' a ha hP
      have hne : t.executor_id ≠ a.executor_id :=
        fun h => hnd.1 (h ▸ List.mem_map_of_mem _ ha)
      unfold sweepRefundStep
      split
      · rw [findUser_refund_ne hne, findUser_updateUser_ne (f := decActive) (fun v => rfl) hne]
        exact hP
      · exact hP
    · have hne : t.executor_id ≠ t'.executor_id := by
        intro h
        exact hnd.1 (h ▸ List.mem_map_of_mem _ htl)
      have he' : findUser (sweepRefundStep cfg oid s t') t.executor_id = some e := by
        unfold sweepRefundStep
        split
        · rw [findUser_refund_ne hne, findUser_updateUser_ne (f := decActive) (fun v => rfl) hne]
          exact he
        · exact he
      exact ih (sweepRefundStep cfg oid s t') t e htl hnd.2 he'

theorem processNoResponseOrder_findOrder (cfg : Settings) (s : DBState) (o : OrderR)
    {r : OrderR} (h : findOrder s o.id = some r) :
    findOrder (processNoResponseOrder cfg s o) o.id =
      some { r with status := OrderStatus.closedNoResponse } := by
  have h2 : (processNoResponseOrder cfg s o).orders =
      (setStatus s o.id OrderStatus.closedNoResponse).orders := by
    rw [processNoResponseOrder_orders, setStatus_orders]
  rw [findOrder_congr h2, findOrder_setStatus_self _ h]

theorem processNoResponseOrder_txn (cfg : Settings) (s : DBState) (o : OrderR)
    (t : ExecutorTakeR) (ht : t ∈ orderTakes s o.id)
    (hmem : t.executor_id ∈ userIds s) :
    ∃ txn ∈ (processNoResponseOrder cfg s o).transactions,
      txn.user_id = t.executor_id ∧ txn.type = TransactionType.refund
        ∧ txn.amount = cfg.order_take_cost ∧ txn.order_id = some o.id := by
  unfold processNoResponseOrder
  dsimp only
  refine sweepRefund_fold_txn cfg o.id (orderTakes s o.id) _ t ht ?_
  split
  · rw [userIds_updateUser _ _ decActive (fun v => rfl)]
    exact hmem
  · exact hmem

theorem sweepStep_eq_noresp (cfg : Settings) (now : Nat) (s : DBState) (o : OrderR)
    (hnotexp : ¬(o.created_at + o.expires_in_minutes ≤ now))
    (htakes : orderTakes s o.id ≠ [])
    (hresp : o.customer_responded_at = none)
    (hdl : earliestTakeTime (orderTakes s o.id) + cfg.no_response_close_minutes ≤ now) :
    sweepStep cfg now s o = processNoResponseOrder cfg s o := by
  unfold sweepStep
  rw [if_neg hnotexp, if_pos ⟨htakes, hresp⟩, if_pos hdl]

theorem processNoResponseOrder_client (cfg : Settings) (s : DBState) (o : OrderR)
    {c : UserR} (hc : findUser s o.client_id = some c)
    (hcl : o.client_id ∉ (orderTakes s o.id).map (fun t => t.executor_id)) :
    findUser (processNoResponseOrder cfg s o) o.client_id = some (decActive c) := by
  unfold processNoResponseOrder
  dsimp only
  have hc1 : findUser (setStatus s o.id OrderStatus.closedNoResponse) o.client_id =
      some c := hc
  rw [if_pos (by rw [hc1]; rfl)]
  refine foldl_preserve_mem _ (fun s' : DBState =>
    findUser s' o.client_id = some (decActive c)) _ ?_ _
    (findUser_updateUser_self (f := decActive) (fun v => rfl) hc1)
  intro s' t htm hP
  have hne : o.client_id ≠ t.executor_id :=
    fun h => hcl (h ▸ List.mem_map_of_mem _ htm)
  unfold sweepRefundStep
  split
  · rw [findUser_refund_ne hne, findUser_updateUser_ne (f := decActive) (fun v => rfl) hne]
    exact hP
  · exact hP

theorem processNoResponseOrder_executor (cfg : Settings) (s : DBState) (o : OrderR)
    (t : ExecutorTakeR) {e : UserR} (ht : t ∈ orderTakes s o.id)
    (hnd : ((orderTakes s o.id).map (fun x => x.executor_id)).Nodup)
    (hcl : o.client_id ∉ (orderTakes s o.id).map (fun x => x.executor_id))
    (he : findUser s t.executor_id = some e) :
    findUser (processNoResponseOrder cfg s o) t.executor_id =
      some (refundMove cfg e) := by
  unfold processNoResponseOrder
  dsimp only
  have hne : t.executor_id ≠ o.client_id :=
    fun h => hcl (h ▸ List.mem_map_of_mem _ ht)
  have he1 : findUser (setStatus s o.id OrderStatus.closedNoResponse) t.executor_id =
      some e := he
  have he2 : findUser
      (if (findUser (setStatus s o.id OrderStatus.closedNoResponse) o.client_id).isSome then
        updateUser (setStatus s o.id OrderStatus.closedNoResponse) o.client_id decActive
      else setStatus s o.id OrderStatus.closedNoResponse) t.executor_id = some e := by
    split
    · rw [findUser_updateUser_ne (f := decActive) (fun v => rfl) hne]
      exact he1
    · exact he1
  exact sweepRefund_fold_executor cfg o.id (orderTakes s o.id) _ t e ht hnd he2

theorem filter_active_eq_singleton {l : List OrderR}
    (hids : (l.map (fun x => x.id)).Nodup) {o : OrderR} (ho : o ∈ l)
    (hact : o.status = OrderStatus.active)
    (huniq : ∀ x ∈ l, x.status = OrderStatus.active → x = o) :
    l.filter (fun x => x.status == OrderStatus.active) = [o] := by
  induction l with
  | nil => cases ho
  | cons a l ih =>
    rw [List.map_cons, List.nodup_cons] at hids
    by_cases ha : a.status = OrderStatus.active
    · have hao : a = o := huniq a (List.mem_cons_self a l) ha
      rw [List.filter_cons_of_pos (by simp [ha])]
      have hfl : l.filter (fun x => x.status == OrderStatus.active) = [] := by
        rw [List.filter_eq_nil_iff]
        intro x hx hpx
        have hxact : x.status = OrderStatus.active := by simpa using hpx
        have hxa : x = a := (huniq x (List.mem_cons_of_mem _ hx) hxact).trans hao.symm
        have hmem : x.id ∈ l.map (fun y => y.id) := List.mem_map_of_mem _ hx
        exact hids.1 (hxa ▸ hmem)
      rw [hfl, hao]
    · rw [List.filter_cons_of_neg (by simp [ha])]
      have hol : o ∈ l := by
        rcases List.mem_cons.mp ho with rfl | h
        · exact absurd hact ha
        · exact h
      exact ih hids.2 hol (fun x hx hxa => huniq x (List.mem_cons_of_mem _ hx) hxa)

/-! ### C8: the sweeper's no-response close with refund -/

/-- C8: in one sweeper pass, an ACTIVE order that is not past expiry, has
at least one take, has no customer response, and whose earliest take plus
the no-response window has passed, is set to CLOSED_NO_RESPONSE; every
taking executor whose row exists receives a refund-type BalanceTransaction
of exactly the take cost referencing the order id; and — when that order
is the only ACTIVE one, its takers are distinct and the client is not a
taker — the client's counter is clamp-decremented and each taking
executor's counter is clamp-decremented with the balance credited back by
exactly the take cost, restoring it to its pre-take value. -/
theorem c8_sweep_no_response_refund (cfg : Settings) (st : DBState) (now : Nat)
    (o : OrderR)
    (hids : (st.orders.map (fun x => x.id)).Nodup)
    (ho : o ∈ st.orders)
    (hact : o.status = OrderStatus.active)
    (hnotexp : ¬(o.created_at + o.expires_in_minutes ≤ now))
    (htakes : orderTakes st o.id ≠ [])
    (hresp : o.customer_responded_at = none)
    (hdl : earliestTakeTime (orderTakes st o.id) + cfg.no_response_close_minutes ≤ now) :
    findOrder (auto_close_expired_orders cfg st now) o.id =
        some { o with status := OrderStatus.closedNoResponse }
    ∧ (∀ t ∈ orderTakes st o.id, t.executor_id ∈ userIds st →
        ∃ txn ∈ (auto_close_expired_orders cfg st now).transactions,
          txn.user_id = t.executor_id ∧ txn.type = TransactionType.refund
            ∧ txn.amount = cfg.order_take_cost ∧ txn.order_id = some o.id)
    ∧ ((∀ x ∈ st.orders, x.status = OrderStatus.active → x = o) →
        ((orderTakes st o.id).map (fun x => x.executor_id)).Nodup →
        o.client_id ∉ (orderTakes st o.id).map (fun x => x.executor_id) →
        (∀ c, findUser st o.client_id = some c →
          findUser (auto_close_expired_orders cfg st now) o.client_id =
            some (decActive c))
        ∧ (∀ t ∈ orderTakes st o.id, ∀ e, findUser st t.executor_id = some e →
            findUser (auto_close_expired_orders cfg st now) t.executor_id =
              some (refundMove cfg e))) := by
  have hof : o ∈ st.orders.filter (fun x => x.status == OrderStatus.active) :=
    List.mem_filter.mpr ⟨ho, by simp [hact]⟩
  obtain ⟨l1, l2, hsplit⟩ := List.append_of_mem hof
  have hfid : ((st.orders.filter (fun x => x.status == OrderStatus.active)).map
      (fun x => x.id)).Nodup :=
    hids.sublist ((List.filter_sublist _).map _)
  rw [hsplit, List.map_append, List.map_cons, List.nodup_append] at hfid
  obtain ⟨hnd1, hnd2, hdisj⟩ := hfid
  have hnotin1 : o.id ∉ l1.map (fun x => x.id) :=
    fun h => hdisj h (List.mem_cons_self _ _)
  have hnotin2 : o.id ∉ l2.map (fun x => x.id) := (List.nodup_cons.mp hnd2).1
  have hne1 : ∀ a ∈ l1, o.id ≠ a.id :=
    fun a ha h => hnotin1 (h ▸ List.mem_map_of_mem _ ha)
  have hne2 : ∀ a ∈ l2, o.id ≠ a.id :=
    fun a ha h => hnotin2 (h ▸ List.mem_map_of_mem _ ha)
  have hsweep : auto_close_expired_orders cfg st now =
      l2.foldl (sweepStep cfg now)
        (sweepStep cfg now (l1.foldl (sweepStep cfg now) st) o) := by
    unfold auto_close_expired_orders
    rw [hsplit, List.foldl_append, List.foldl_cons]
  have hs1takes : (l1.foldl (sweepStep cfg now) st).takes = st.takes :=
    foldl_takes_eq _ (fun s a => sweepStep_takes cfg now s a) l1 st
  have hs1ot : orderTakes (l1.foldl (sweepStep cfg now) st) o.id = orderTakes st o.id := by
    unfold orderTakes; rw [hs1takes]
  have hs1find : findOrder (l1.foldl (sweepStep cfg now) st) o.id = some o := by
    refine foldl_preserve_mem _ (fun s' : DBState => findOrder s' o.id = some o) l1 ?_ st ?_
    · intro s' a ha hP
      rw [findOrder_sweepStep_ne cfg now s' a (hne1 a ha)]
      exact hP
    · exact findOrder_eq_of_mem hids ho
  have hs1users : userIds (l1.foldl (sweepStep cfg now) st) = userIds st :=
    foldl_userIds_eq _ (fun s a => userIds_sweepStep cfg now s a) l1 st
  have hstep : sweepStep cfg now (l1.foldl (sweepStep cfg now) st) o =
      processNoResponseOrder cfg (l1.foldl (sweepStep cfg now) st) o :=
    sweepStep_eq_noresp cfg now _ o hnotexp (by rw [hs1ot]; exact htakes) hresp
      (by rw [hs1ot]; exact hdl)
  refine ⟨?_, ?_, ?_⟩
  · rw [hsweep, hstep]
    refine foldl_preserve_mem _ (fun s' : DBState =>
      findOrder s' o.id = some { o with status := OrderStatus.closedNoResponse }) l2 ?_ _ ?_
    · intro s' a ha hP
      rw [findOrder_sweepStep_ne cfg now s' a (hne2 a ha)]
      exact hP
    · exact processNoResponseOrder_findOrder cfg _ o hs1find
  · intro t ht hm
    rw [hsweep, hstep]
    obtain ⟨txn, htmem, hfields⟩ := processNoResponseOrder_txn cfg
      (l1.foldl (sweepStep cfg now) st) o t (by rw [hs1ot]; exact ht)
      (by rw [hs1users]; exact hm)
    refine ⟨txn, ?_, hfields⟩
    exact foldl_preserve _ (fun s' : DBState => txn ∈ s'.transactions)
      (fun s' a h' => txn_mem_sweepStep cfg now s' a h') l2 _ htmem
  · intro huniq hnd hcl
    have heq : auto_close_expired_orders cfg st now = processNoResponseOrder cfg st o := by
      unfold auto_close_expired_orders
      rw [filter_active_eq_singleton hids ho hact huniq, List.foldl_cons, List.foldl_nil]
      exact sweepStep_eq_noresp cfg now st o hnotexp htakes hresp hdl
    constructor
    · intro c hc
      rw [heq]
      exact processNoResponseOrder_client cfg st o hc hcl
    · intro t ht e he
      rw [heq]
      exact processNoResponseOrder_executor cfg st o t ht hnd hcl he

/-! ### Witnesses: each claim theorem applied at concrete inputs -/

def demoReqFresh : CreateOrderRequest :=
  { category := "repair", description := "fix", city := "msk", contact := "@new" }

def demoReqClash : CreateOrderRequest :=
  { category := "repair", description := "fix", city := "msk", contact := "@client" }

def demoUReq : UpdateOrderRequest :=
  { category := none, description := none, contact := none }

def demoTake : ExecutorTakeR := { order_id := "ord1", executor_id := 2, taken_at := 10 }

def demoExecTaken : UserR :=
  { id := 2, balance := 3, active_orders_count := 1, completed_orders_count := 0 }

def demoStTaken : DBState :=
  { users := [demoClient, demoExecTaken], orders := [demoOrder],
    takes := [demoTake], transactions := [], invoices := [] }

def demoInvPaid : PaymentInvoiceR :=
  { id := 0, user_id := 2, crypto_bot_invoice_id := 77, amount := 9,
    status := InvoiceStatus.paid, balance_transaction_id := none, paid_at := some 1 }

def demoInvPending : PaymentInvoiceR :=
  { id := 0, user_id := 2, crypto_bot_invoice_id := 77, amount := 9,
    status := InvoiceStatus.pending, balance_transaction_id := none, paid_at := none }

def demoStInvPaid : DBState :=
  { users := [demoClient, demoExec], orders := [], takes := [],
    transactions := [], invoices := [demoInvPaid] }

def demoStInvPending : DBState :=
  { users := [demoClient, demoExec], orders := [], takes := [],
    transactions := [], invoices := [demoInvPending] }

theorem c1_take_cap_invariant_witness :
    (∀ o ∈ demoSt.orders,
      (orderTakes demoSt o.id).length ≤ demoCfg.max_executors_per_order)
    ∧ (∀ o ∈ (take_order demoCfg demoSt "ord1" 2 10).2.orders,
        (orderTakes (take_order demoCfg demoSt "ord1" 2 10).2 o.id).length ≤
          demoCfg.max_executors_per_order) :=
  ⟨by decide,
    (c1_take_cap_invariant demoCfg demoSt "ord1" 2 1 10 demoReqFresh demoUReq
      "n1" 77 (by decide)).1⟩

theorem c2_take_payment_gate_witness :
    findUser demoSt 2 = some demoExec
    ∧ findOrder demoSt "ord1" = some demoOrder
    ∧ demoOrder.status = OrderStatus.active
    ∧ is_expired demoOrder 10 = false
    ∧ demoOrder.client_id ≠ 2
    ∧ ((orderTakes demoSt "ord1").any (fun t => t.executor_id == 2)) = false
    ∧ (orderTakes demoSt "ord1").length < demoCfg.max_executors_per_order
    ∧ ((take_order demoCfg demoSt "ord1" 2 10).1 =
          Except.error Err.paymentRequired ↔
        demoExec.balance < demoCfg.order_take_cost) :=
  ⟨by decide, by decide, rfl, by decide, by decide, by decide, by decide,
    (c2_take_payment_gate demoCfg demoSt "ord1" 2 10 demoExec demoOrder
      (by decide) (by decide) rfl (by decide) (by decide) (by decide) (by decide)).1⟩

theorem c3_take_idempotent_witness :
    (take_order demoCfg demoSt "ord1" 2 10).1 = Except.ok ("@client", 1, 3)
    ∧ take_order demoCfg (take_order demoCfg demoSt "ord1" 2 10).2 "ord1" 2 10 =
        (Except.ok ("@client", 1, 3), (take_order demoCfg demoSt "ord1" 2 10).2) :=
  ⟨rfl, (c3_take_idempotent demoCfg demoSt "ord1" 2 10).2 ("@client", 1, 3) rfl⟩

theorem c4_process_paid_invoice_idempotent_witness :
    demoStInvPaid.invoices.find? (fun i => i.crypto_bot_invoice_id == 77) =
        some demoInvPaid
    ∧ demoInvPaid.status = InvoiceStatus.paid
    ∧ process_paid_invoice demoStInvPaid 77 50 = (Except.ok (), demoStInvPaid)
    ∧ (process_paid_invoice (process_paid_invoice demoStInvPending 77 50).2 77 60).2 =
        (process_paid_invoice demoStInvPending 77 50).2 :=
  ⟨by decide, rfl,
    (c4_process_paid_invoice_idempotent demoStInvPaid 77 50 50).1 demoInvPaid
      (by decide) rfl,
    (c4_process_paid_invoice_idempotent demoStInvPending 77 50 60).2.2⟩

theorem c5_status_transitions_witness :
    findUser demoStExpired 2 = some demoExec
    ∧ findOrder demoStExpired "ord1" = some { demoOrder with status := OrderStatus.expired }
    ∧ take_order demoCfg demoStExpired "ord1" 2 10 = (Except.error Err.gone, demoStExpired)
    ∧ (demoSt.orders.map (fun x => x.id)).Nodup
    ∧ ordersStatusStep demoSt (auto_close_expired_orders demoCfg demoSt 10) :=
  ⟨by decide, by decide,
    (c5_status_transitions demoCfg demoStExpired "ord1" 2 1 10).1 demoExec
      { demoOrder with status := OrderStatus.expired } (by decide) (by decide) (by decide),
    by decide,
    (c5_status_transitions demoCfg demoSt "ord1" 2 1 10).2.2.2.2.2.2.1 (by decide)⟩

theorem c6_create_unique_active_contact_witness :
    ((create_order demoCfg demoSt 1 demoReqClash "n1" 5).1 = Except.error Err.conflict ↔
      ∃ o ∈ demoSt.orders, o.contact = demoReqClash.contact ∧ o.status = OrderStatus.active)
    ∧ (∀ o ∈ demoSt.orders, o.contact = demoReqFresh.contact → o.status ≠ OrderStatus.active)
    ∧ (∃ newOrder, (create_order demoCfg demoSt 1 demoReqFresh "n1" 5).1 = Except.ok newOrder
        ∧ newOrder ∈ (create_order demoCfg demoSt 1 demoReqFresh "n1" 5).2.orders
        ∧ newOrder.contact = demoReqFresh.contact ∧ newOrder.status = OrderStatus.active) :=
  ⟨(c6_create_unique_active_contact demoCfg demoSt 1 demoReqClash "n1" 5).1,
    by decide,
    (c6_create_unique_active_contact demoCfg demoSt 1 demoReqFresh "n1" 5).2.1 (by decide)⟩

theorem c7_take_lazy_expiry_witness :
    findUser demoSt 2 = some demoExec
    ∧ findOrder demoSt "ord1" = some demoOrder
    ∧ is_expired demoOrder 100 = true
    ∧ (take_order demoCfg demoSt "ord1" 2 100).1 = Except.error Err.gone
    ∧ findOrder (take_order demoCfg demoSt "ord1" 2 100).2 "ord1" =
        some { demoOrder with status := OrderStatus.expired } :=
  ⟨by decide, by decide, by decide,
    (c7_take_lazy_expiry demoCfg demoSt "ord1" 2 100 demoExec demoOrder
      (by decide) (by decide) rfl (by decide)).1,
    (c7_take_lazy_expiry demoCfg demoSt "ord1" 2 100 demoExec demoOrder
      (by decide) (by decide) rfl (by decide)).2.1⟩

theorem c8_sweep_no_response_refund_witness :
    demoOrder ∈ demoStTaken.orders
    ∧ orderTakes demoStTaken "ord1" ≠ []
    ∧ earliestTakeTime (orderTakes demoStTaken "ord1") +
        demoCfg.no_response_close_minutes ≤ 30
    ∧ findOrder (auto_close_expired_orders demoCfg demoStTaken 30) "ord1" =
        some { demoOrder with status := OrderStatus.closedNoResponse }
    ∧ (∀ t ∈ orderTakes demoStTaken "ord1", ∀ e,
        findUser demoStTaken t.executor_id = some e →
        findUser (auto_close_expired_orders demoCfg demoStTaken 30) t.executor_id =
          some (refundMove demoCfg e)) :=
  ⟨by decide, by decide, by decide,
    (c8_sweep_no_response_refund demoCfg demoStTaken 30 demoOrder (by decide)
      (by decide) rfl (by decide) (by decide) rfl (by decide)).1,
    ((c8_sweep_no_response_refund demoCfg demoStTaken 30 demoOrder (by decide)
      (by decide) rfl (by decide) (by decide) rfl (by decide)).2.2
      (by decide) (by decide) (by decide)).2⟩

theorem c9_delete_preconditions_witness :
    ((delete_order demoSt "zzz" 1).1 = Except.error Err.notFound ↔
      demoSt.orders.find? (fun o => o.id == "zzz" && o.client_id == 1) = none)
    ∧ demoSt.orders.find? (fun o => o.id == "ord1" && o.client_id == 1) = some demoOrder
    ∧ orderTakes demoSt "ord1" = []
    ∧ delete_order demoSt "ord1" 1 =
        (Except.ok (), updateUser (setStatus demoSt "ord1" OrderStatus.deleted) 1 decActive) :=
  ⟨(c9_delete_preconditions demoSt "zzz" 1).1,
    by decide, by decide,
    (c9_delete_preconditions demoSt "ord1" 1).2.2 demoOrder (by decide) (by decide)⟩

theorem c10_counters_nonneg_witness :
    countersNonneg demoSt
    ∧ countersNonneg (take_order demoCfg demoSt "ord1" 2 10).2
    ∧ countersNonneg (auto_close_expired_orders demoCfg demoSt 100) :=
  ⟨by unfold countersNonneg; decide,
    (c10_counters_nonneg demoCfg demoSt "ord1" 2 1 10 demoReqFresh demoUReq
      "n1" 77 (by unfold countersNonneg; decide)).2.2.2.1,
    (c10_counters_nonneg demoCfg demoSt "ord1" 2 1 100 demoReqFresh demoUReq
      "n1" 77 (by unfold countersNonneg; decide)).2.2.2.2.2.2.2.1⟩
